import Mathlib

/-!
Formal model of the Session Routing & Persistence subsystem of the
`yoyoclaw` repository (Python package `openclaw_py`), together with proofs
about the routing and persistence claims.

The Python code is shallowly embedded:

* Python `str` values are Lean `String`s; the character-level operations
  (`str.strip`, `str.lower`, `str.split(":")`, slicing, `rfind`) are modelled
  on `List Char` with ASCII semantics.
* `None` is modelled with `Option`.
* The only exception the route resolver can raise (the undefined name
  `peer__get_attr` in `_matches_peer`, `routing/resolve_route.py` lines
  170-171) is modelled with `Except PyError`.
* Wall-clock reads (`time.time()`) and UUID generation are passed in as
  explicit parameters.
* The per-path `asyncio.Lock` of the session store is modelled by an explicit
  lock flag; awaiting a lock that the running task already holds never
  completes (an `asyncio.Lock` is not reentrant), which is modelled by the
  computation returning `none`.
-/

namespace OpenClaw

/-! ## Python string primitives (ASCII model)

`pyStrip` models `str.strip()` (whitespace set of CPython restricted to
ASCII), `pyLowerChar`/`pyLower` model `str.lower()` on ASCII letters.
-/

/-- Whitespace characters stripped by Python `str.strip()` (ASCII part). -/
def isPyWs (c : Char) : Bool :=
  c = ' ' || c = '\t' || c = '\n' || c = '\x0d' || c = '\x0b' || c = '\x0c'

/-- Drop leading whitespace, as the left half of `str.strip()`. -/
def trimLeftL (l : List Char) : List Char := l.dropWhile isPyWs

/-- Drop trailing whitespace, as the right half of `str.strip()`. -/
def trimRightL (l : List Char) : List Char := (l.reverse.dropWhile isPyWs).reverse

/-- Character list model of Python `str.strip()`. -/
def trimL (l : List Char) : List Char := trimRightL (trimLeftL l)

/-- String wrapper for `str.strip()`. -/
def pyStrip (s : String) : String := String.mk (trimL s.data)

/-- ASCII model of Python `str.lower` on one character. -/
def pyLowerChar (c : Char) : Char :=
  if 65 ≤ c.toNat && c.toNat ≤ 90 then Char.ofNat (c.toNat + 32) else c

/-- Character list model of Python `str.lower()`. -/
def lowerL (l : List Char) : List Char := l.map pyLowerChar

/-- String wrapper for `str.lower()`. -/
def pyLower (s : String) : String := String.mk (lowerL s.data)

/-- Model of `_normalize_token` (`routing/session_key.py`): strip then lower. -/
def normToken (s : Option String) : String := pyLower (pyStrip (s.getD ""))

/-! ## Colon splitting

`splitColonAux acc l` models Python `str.split(":")`; `nonemptySegs` is the
`[p for p in raw.split(":") if p]` comprehension used by
`parse_agent_session_key`.
-/

/-- Accumulator-style split on `:`; `acc` holds the current segment reversed. -/
def splitColonAux : List Char → List Char → List (List Char)
  | acc, [] => [acc.reverse]
  | acc, c :: rest =>
    if c = ':' then acc.reverse :: splitColonAux [] rest
    else splitColonAux (c :: acc) rest

/-- Model of Python `raw.split(":")`. -/
def splitColon (l : List Char) : List (List Char) := splitColonAux [] l

/-- The non-empty colon segments: `[p for p in raw.split(":") if p]`. -/
def nonemptySegs (l : List Char) : List (List Char) :=
  (splitColon l).filter (fun p => p ≠ [])

/-- Model of `":".join(parts)`. -/
def joinColon : List (List Char) → List Char
  | [] => []
  | [p] => p
  | p :: ps => p ++ ':' :: joinColon ps

/-! ## Session key parsing (`sessions/key_utils.py`) -/

/-- Result of `parse_agent_session_key`. -/
structure ParsedAgentSessionKey where
  agent_id : String
  rest : String
deriving DecidableEq, Repr

/-- Body of `parse_agent_session_key` on the stripped key: split on `:`
discarding empty segments, require at least three segments with literal
first segment `agent`, and return the stripped second segment together with
the re-joined remainder. -/
def parseRawSegs (raw : List Char) : Option ParsedAgentSessionKey :=
  if raw = [] then none
  else
    match nonemptySegs raw with
    | p0 :: p1 :: p2 :: ps =>
      if p0 ≠ "agent".data then none
      else
        let agentId := trimL p1
        let rest := joinColon (p2 :: ps)
        if agentId = [] then none
        else if rest = [] then none
        else some ⟨String.mk agentId, String.mk rest⟩
    | _ => none

/-- Model of `parse_agent_session_key` (`sessions/key_utils.py` lines
22-59): `None` and blank keys fail; otherwise the stripped key is parsed by
`parseRawSegs`. -/
def parse_agent_session_key (session_key : Option String) : Option ParsedAgentSessionKey :=
  match session_key with
  | none => none
  | some sk => parseRawSegs (trimL sk.data)

/-- Bool test for `pat` being a prefix at the front of `l` (Python
`startswith` / one position of `rfind`). -/
def matchesAt (pat l : List Char) : Bool := l.take pat.length = pat

/-- Model of `classify_session_key_shape` (`routing/session_key.py` lines
178-204). Returns one of the literals `missing`, `agent`, `malformed_agent`,
`legacy_or_alias`. -/
def classify_session_key_shape (session_key : Option String) : String :=
  let raw := trimL ((session_key.getD "").data)
  if raw = [] then "missing"
  else if (parse_agent_session_key (some (String.mk raw))).isSome then "agent"
  else if matchesAt "agent:".data (lowerL raw) then "malformed_agent"
  else "legacy_or_alias"

/-! ## Agent / account id normalization (`routing/session_key.py`)

`VALID_ID_RE = ^[a-z0-9]([a-z0-9_-]*[a-z0-9])?$` with `re.IGNORECASE` is
modelled by `validIdMatch`; `INVALID_CHARS_RE = [^a-z0-9_-]+` (applied after
`.lower()`, so on lowercase text) by `collapseInvalid`, which replaces each
maximal run of invalid characters by a single `-`.
-/

/-- ASCII lowercase letter or digit (`[a-z0-9]`, codes 97-122 and 48-57). -/
def isLowerAlphaNum (c : Char) : Bool :=
  (97 ≤ c.toNat && c.toNat ≤ 122) || (48 ≤ c.toNat && c.toNat ≤ 57)

/-- `[a-z0-9]` under `re.IGNORECASE`: also ASCII uppercase (codes 65-90). -/
def isAlphaNumCI (c : Char) : Bool :=
  isLowerAlphaNum c || (65 ≤ c.toNat && c.toNat ≤ 90)

/-- `[a-z0-9_-]` under `re.IGNORECASE` (`_` is 95, `-` is 45). -/
def isIdCharCI (c : Char) : Bool :=
  isAlphaNumCI c || c.toNat = 95 || c.toNat = 45

/-- `[a-z0-9_-]` without `IGNORECASE`: the complement of `INVALID_CHARS_RE`. -/
def isLowerIdChar (c : Char) : Bool :=
  isLowerAlphaNum c || c.toNat = 95 || c.toNat = 45

/-- Tail of `VALID_ID_RE`: `([a-z0-9_-]*[a-z0-9])?` — empty, or inner id
characters followed by a final alphanumeric character. -/
def validIdTail : List Char → Bool
  | [] => true
  | [d] => isAlphaNumCI d
  | d :: rest => isIdCharCI d && validIdTail rest

/-- Full-string match of `VALID_ID_RE` (case-insensitive). -/
def validIdMatch : List Char → Bool
  | [] => false
  | c :: rest => isAlphaNumCI c && validIdTail rest

/-- Substitution `INVALID_CHARS_RE.sub("-", ·)`: each maximal run of invalid
characters becomes one `-`. The flag records whether the previous character
was part of an invalid run. -/
def collapseAux : Bool → List Char → List Char
  | _, [] => []
  | inRun, c :: rest =>
    if isLowerIdChar c then c :: collapseAux false rest
    else if inRun then collapseAux true rest
    else '-' :: collapseAux true rest

/-- Replace every maximal run of characters outside `[a-z0-9_-]` by `-`. -/
def collapseInvalid (l : List Char) : List Char := collapseAux false l

/-- `LEADING_DASH_RE.sub("", ·)`: strip leading dashes. -/
def dropLeadingDashes (l : List Char) : List Char := l.dropWhile (fun c => c = '-')

/-- `TRAILING_DASH_RE.sub("", ·)`: strip trailing dashes. -/
def dropTrailingDashes (l : List Char) : List Char :=
  (l.reverse.dropWhile (fun c => c = '-')).reverse

/-- Default agent id (`DEFAULT_AGENT_ID`). -/
def DEFAULT_AGENT_ID : String := "main"

/-- Default main key (`DEFAULT_MAIN_KEY`). -/
def DEFAULT_MAIN_KEY : String := "main"

/-- Default account id (`DEFAULT_ACCOUNT_ID`). -/
def DEFAULT_ACCOUNT_ID : String := "default"

/-- List-level body of `normalize_agent_id` (`routing/session_key.py` lines
207-241): strip; empty input defaults; an id already matching `VALID_ID_RE`
within 64 chars is lowercased; otherwise lowercase, collapse invalid runs to
`-`, trim leading and trailing dashes, truncate to 64 chars, defaulting when
the result is empty. The default is supplied so the same body also serves
`normalize_account_id`, whose algorithm is identical. -/
def normalizeIdL (dflt : List Char) (l : List Char) : List Char :=
  let trimmed := trimL l
  if trimmed = [] then dflt
  else if validIdMatch trimmed && trimmed.length ≤ 64 then lowerL trimmed
  else
    let n1 := lowerL trimmed
    let n2 := collapseInvalid n1
    let n3 := dropLeadingDashes n2
    let n4 := dropTrailingDashes n3
    let n5 := n4.take 64
    if n5 = [] then dflt else n5

/-- Model of `normalize_agent_id` (argument `None` is `none`). -/
def normalize_agent_id (value : Option String) : String :=
  String.mk (normalizeIdL DEFAULT_AGENT_ID.data ((value.getD "").data))

/-- Model of `sanitize_agent_id`, an alias of `normalize_agent_id`. -/
def sanitize_agent_id (value : Option String) : String := normalize_agent_id value

/-- Model of `normalize_account_id`: same algorithm, default `default`. -/
def normalize_account_id (value : Option String) : String :=
  String.mk (normalizeIdL DEFAULT_ACCOUNT_ID.data ((value.getD "").data))

/-- Model of `normalize_main_key` (`routing/session_key.py` lines 68-86). -/
def normalize_main_key (value : Option String) : String :=
  let trimmed := pyStrip (value.getD "")
  if trimmed = "" then DEFAULT_MAIN_KEY else pyLower trimmed

/-! ## Session key builders (`routing/session_key.py`) -/

/-- DM session scope (`Literal["main", "per-peer", "per-channel-peer",
"per-account-channel-peer"]`). -/
inductive DmScope where
  | main
  | perPeer
  | perChannelPeer
  | perAccountChannelPeer
deriving DecidableEq, Repr

/-- Model of `build_agent_main_session_key` (`routing/session_key.py` lines
291-312): `agent:<normalized agent id>:<normalized main key>`. -/
def build_agent_main_session_key (agent_id : String) (main_key : Option String) : String :=
  "agent:" ++ normalize_agent_id (some agent_id) ++ ":" ++ normalize_main_key main_key

/-- Model of `_resolve_linked_peer_id` (`routing/session_key.py` lines
392-444). The identity-link table is an insertion-ordered association list
`canonical ↦ aliases`; the first entry holding an alias that normalizes to
the bare peer id or its `channel:peerId` scoped form wins, and its stripped
canonical name is returned. -/
def resolveLinkedPeerId :
    Option (List (String × List String)) → String → String → Option String
  | none, _, _ => none
  | some links, channel, peer_id =>
    if links = [] then none
    else
      let peerIdTrimmed := pyStrip peer_id
      if peerIdTrimmed = "" then none
      else
        let rawCand := normToken (some peerIdTrimmed)
        let cands0 : List String := if rawCand ≠ "" then [rawCand] else []
        let channelNormalized := normToken (some channel)
        let cands : List String :=
          if channelNormalized ≠ "" then
            let scopedCand := normToken (some (channelNormalized ++ ":" ++ peerIdTrimmed))
            if scopedCand ≠ "" then cands0 ++ [scopedCand] else cands0
          else cands0
        if cands = [] then none
        else
          links.findSome? fun entry =>
            let canonicalName := pyStrip entry.1
            if canonicalName = "" then none
            else
              entry.2.findSome? fun aliasId =>
                let normalized := normToken (some aliasId)
                if normalized ≠ "" && cands.contains normalized then some canonicalName
                else none

/-- The `(channel or "").strip().lower() or "unknown"` idiom of the builder. -/
def channelLowerOr (channel : String) : String :=
  let t := pyLower (pyStrip channel)
  if t = "" then "unknown" else t

/-- The direct-peer id after the identity-link resolution of
`build_agent_peer_session_key` (`routing/session_key.py` lines 352-364):
the stripped peer id, replaced by the canonical linked id when the DM scope
is not `main` and `_resolve_linked_peer_id` finds one. -/
def resolvedDirectPeerId (channel : String) (peer_id : Option String)
    (identity_links : Option (List (String × List String)))
    (dm_scope : DmScope) : String :=
  let peerIdStr0 := pyStrip (peer_id.getD "")
  let linked : Option String :=
    if dm_scope ≠ DmScope.main then resolveLinkedPeerId identity_links channel peerIdStr0
    else none
  match linked with
  | some lp => if lp = "" then peerIdStr0 else lp
  | none => peerIdStr0

/-- Model of `build_agent_peer_session_key` (`routing/session_key.py` lines
315-389). For non-direct peers the key is
`agent:<id>:<channel>:<kind>:<peerIdOrUnknown>`; for direct peers the DM
scope selects the shape, falling back to the main session key when the scope
is `main` or the resolved peer id is empty. -/
def build_agent_peer_session_key (agent_id : String) (main_key : Option String)
    (channel : String) (account_id : Option String) (peer_kind : Option String)
    (peer_id : Option String) (identity_links : Option (List (String × List String)))
    (dm_scope : DmScope) : String :=
  let normalizedPeerKind := match peer_kind with
    | none => "direct"
    | some s => if s = "" then "direct" else s
  if normalizedPeerKind = "direct" then
    let peerIdLower := pyLower (resolvedDirectPeerId channel peer_id identity_links dm_scope)
    if dm_scope = DmScope.perAccountChannelPeer && peerIdLower ≠ "" then
      "agent:" ++ normalize_agent_id (some agent_id) ++ ":" ++ channelLowerOr channel ++
        ":" ++ normalize_account_id account_id ++ ":direct:" ++ peerIdLower
    else if dm_scope = DmScope.perChannelPeer && peerIdLower ≠ "" then
      "agent:" ++ normalize_agent_id (some agent_id) ++ ":" ++ channelLowerOr channel ++
        ":direct:" ++ peerIdLower
    else if dm_scope = DmScope.perPeer && peerIdLower ≠ "" then
      "agent:" ++ normalize_agent_id (some agent_id) ++ ":direct:" ++ peerIdLower
    else
      build_agent_main_session_key agent_id main_key
  else
    let peerIdLower := pyLower (let t := pyStrip (peer_id.getD ""); if t = "" then "unknown" else t)
    "agent:" ++ normalize_agent_id (some agent_id) ++ ":" ++ channelLowerOr channel ++
      ":" ++ normalizedPeerKind ++ ":" ++ peerIdLower

/-! ## Thread session keys -/

/-- Result of `resolve_thread_session_keys`. -/
structure ThreadKeys where
  session_key : String
  parent_session_key : Option String
deriving DecidableEq, Repr

/-- Model of `resolve_thread_session_keys` (`routing/session_key.py` lines
474-509): appends `:thread:<lowered id>` when a non-blank thread id is
present and `use_suffix` is set; passes the parent key through unchanged. -/
def resolve_thread_session_keys (base_session_key : String) (thread_id : Option String)
    (parent_session_key : Option String) (use_suffix : Bool) : ThreadKeys :=
  let threadIdTrimmed := pyStrip (thread_id.getD "")
  if threadIdTrimmed = "" then ⟨base_session_key, none⟩
  else
    let normalizedThreadId := pyLower threadIdTrimmed
    let sessionKey :=
      if use_suffix then base_session_key ++ ":thread:" ++ normalizedThreadId
      else base_session_key
    ⟨sessionKey, parent_session_key⟩

/-- Largest index `i` with `matchesAt pat (l.drop i)`, as Python `rfind`
(the recursion prefers a match found further right). -/
def rfindPat (pat : List Char) : List Char → Option Nat
  | [] => if matchesAt pat [] then some 0 else none
  | c :: rest =>
    match rfindPat pat rest with
    | some i => some (i + 1)
    | none => if matchesAt pat (c :: rest) then some 0 else none

/-- Python `str.rfind`: the index, or `-1` when absent. -/
def rfindInt (pat l : List Char) : Int :=
  match rfindPat pat l with
  | some i => (i : Int)
  | none => -1

/-- Thread markers `THREAD_SESSION_MARKERS` of `sessions/key_utils.py`. -/
def THREAD_SESSION_MARKERS : List (List Char) := [":thread:".data, ":topic:".data]

/-- Model of `resolve_thread_parent_session_key` (`sessions/key_utils.py`
lines 166-207): looks for the rightmost (case-insensitive) `:thread:` or
`:topic:` marker and returns the stripped text before it. -/
def resolve_thread_parent_session_key (session_key : Option String) : Option String :=
  match session_key with
  | none => none
  | some sk =>
    let raw := trimL sk.data
    if raw = [] then none
    else
      let normalized := lowerL raw
      let idx : Int := THREAD_SESSION_MARKERS.foldl
        (fun idx marker =>
          let candidate := rfindInt marker normalized
          if candidate > idx then candidate else idx)
        (-1)
      if idx ≤ 0 then none
      else
        let parent := trimL (raw.take idx.toNat)
        if parent = [] then none else some (String.mk parent)

/-! ## Route resolver (`routing/resolve_route.py`)

The configuration schema (`openclaw_py.config.types`) is not part of the
sources; its shape is reconstructed from how `resolve_route.py`,
`bindings.py` and `agent_scope.py` access it through `_get_attr` (absent
attributes give the default, so an absent-or-`None` field is `none`).
Agent entries are the plain-dict form (`{"id": ..., "default": ...}`): the
agent-lookup loop of `_pick_first_existing_agent_id` only considers
`isinstance(agent, dict)` entries. A binding's peer predicate may be either
a plain dict (`dictPeer`, as in JSON-loaded config) or a typed object
(`modelPeer`); `_matches_peer` distinguishes them with `isinstance(...,
dict)` before touching the fields.
-/

/-- `ChatType = Literal["direct", "group", "channel"]`. -/
inductive ChatType where
  | direct
  | group
  | channel
deriving DecidableEq, Repr

/-- The string literal carried by a `ChatType` value. -/
def ChatType.toStr : ChatType → String
  | .direct => "direct"
  | .group => "group"
  | .channel => "channel"

/-- A route peer (`RoutePeer` NamedTuple). -/
structure RoutePeer where
  kind : ChatType
  id : String
deriving DecidableEq, Repr

/-- The value held by a binding's `match.peer` attribute. -/
inductive PeerMatchVal where
  | dictPeer (entries : List (String × String))
  | modelPeer (kind : Option String) (id : Option String)
deriving DecidableEq, Repr

/-- A binding's `match` object. `none` fields are absent-or-`None`
attributes. -/
structure BindingMatch where
  channel : Option String
  account_id : Option String
  peer : Option PeerMatchVal
  guild_id : Option String
  team_id : Option String
deriving DecidableEq, Repr

/-- One configured binding (`AgentBinding`). -/
structure Binding where
  agent_id : Option String
  matchSpec : Option BindingMatch
deriving DecidableEq, Repr

/-- One configured agent entry, in the plain-dict form
`{"id": ..., "default": ...}` consumed by the resolver. -/
structure AgentEntry where
  id : String
  default : Bool
deriving DecidableEq, Repr

/-- `cfg.agents` (`AgentsConfig`): wrapper around the agent list. -/
structure AgentsCfg where
  list : List AgentEntry
deriving DecidableEq, Repr

/-- `cfg.session` (`SessionConfig`): DM scope and identity links. -/
structure SessionCfg where
  dm_scope : DmScope
  identity_links : Option (List (String × List String))
deriving DecidableEq, Repr

/-- The `OpenClawConfig` fields used by the routing subsystem. -/
structure OpenClawConfig where
  agents : Option AgentsCfg
  bindings : Option (List Binding)
  session : Option SessionCfg
deriving DecidableEq, Repr

/-- The single runtime error the resolver can raise: evaluating the
undefined global name `peer__get_attr` (`routing/resolve_route.py` 170). -/
inductive PyError where
  | nameError
deriving DecidableEq, Repr

/-- Model of `list_bindings` (`routing/bindings.py`): the configured binding
list, or empty when absent. (The `if binding` truthiness filter drops only
falsy entries, which the typed model cannot contain.) -/
def list_bindings (cfg : OpenClawConfig) : List Binding := cfg.bindings.getD []

/-- Model of `_list_agents` as used by both `agent_scope.py` and
`resolve_route.py`: the configured agent list, or empty when absent. -/
def listAgents (cfg : OpenClawConfig) : List AgentEntry :=
  match cfg.agents with
  | none => []
  | some a => a.list

/-- Model of `resolve_default_agent_id` (`routing/agent_scope.py`): first
agent marked `default`, else the first agent, else the static default; the
chosen id is stripped, defaulted when empty, and normalized. -/
def resolve_default_agent_id (cfg : OpenClawConfig) : String :=
  match listAgents cfg with
  | [] => DEFAULT_AGENT_ID
  | a0 :: rest =>
    let defaults := (a0 :: rest).filter (fun a => a.default)
    let chosen := defaults.headD a0
    let chosenId := pyStrip chosen.id
    normalize_agent_id (some (if chosenId = "" then DEFAULT_AGENT_ID else chosenId))

/-- Model of `_pick_first_existing_agent_id` (`routing/resolve_route.py`
lines 231-261): empty requested id falls back to the default agent; an
empty agent list trusts the requested id; otherwise the first configured
agent whose normalized id equals the normalized request is used, falling
back to the default agent when none matches. -/
def _pick_first_existing_agent_id (cfg : OpenClawConfig) (agent_id : String) : String :=
  let trimmed := pyStrip agent_id
  if trimmed = "" then sanitize_agent_id (some (resolve_default_agent_id cfg))
  else
    let normalized := normalize_agent_id (some trimmed)
    match listAgents cfg with
    | [] => sanitize_agent_id (some trimmed)
    | agents =>
      match agents.find? (fun a => normalize_agent_id (some (pyStrip a.id)) = normalized) with
      | some a => sanitize_agent_id (some (pyStrip a.id))
      | none => sanitize_agent_id (some (resolve_default_agent_id cfg))

/-- Model of `_matches_account_id` (`routing/resolve_route.py` lines
108-129): empty pattern matches only the default account, `*` matches all,
anything else matches exactly. -/
def _matches_account_id (pattern : Option String) (actual : String) : Bool :=
  let trimmed := pyStrip (pattern.getD "")
  if trimmed = "" then actual = DEFAULT_ACCOUNT_ID
  else if trimmed = "*" then true
  else trimmed = actual

/-- Model of `_matches_channel` (lines 132-149). -/
def _matches_channel (matchSpec : Option BindingMatch) (channel : String) : Bool :=
  match matchSpec with
  | none => false
  | some m =>
    let key := normToken (some (m.channel.getD ""))
    if key = "" then false else key = channel

/-- Model of `_matches_peer` (lines 152-176). A `None` or empty-dict peer
predicate gives `False`; a typed (pydantic) peer predicate fails the
`isinstance(peer_match, dict)` check and also gives `False`; a non-empty
dict predicate reaches line 170, which evaluates the undefined global name
`peer__get_attr` and raises `NameError`. -/
def _matches_peer (matchSpec : Option BindingMatch) (_peer : RoutePeer) :
    Except PyError Bool :=
  match matchSpec with
  | none => .ok false
  | some m =>
    match m.peer with
    | none => .ok false
    | some (.modelPeer _ _) => .ok false
    | some (.dictPeer entries) =>
      if entries = [] then .ok false else .error .nameError

/-- Model of `_matches_guild` (lines 179-196). -/
def _matches_guild (matchSpec : Option BindingMatch) (guild_id : String) : Bool :=
  match matchSpec with
  | none => false
  | some m =>
    let matchId := pyStrip (m.guild_id.getD "")
    if matchId = "" then false else matchId = guild_id

/-- Model of `_matches_team` (lines 199-216). -/
def _matches_team (matchSpec : Option BindingMatch) (team_id : String) : Bool :=
  match matchSpec with
  | none => false
  | some m =>
    let matchId := pyStrip (m.team_id.getD "")
    if matchId = "" then false else matchId = team_id

/-- Python truthiness of a `match.peer` attribute (an empty dict is falsy). -/
def peerTruthy : Option PeerMatchVal → Bool
  | none => false
  | some (.dictPeer entries) => entries ≠ []
  | some (.modelPeer _ _) => true

/-- Input of `resolve_agent_route` (`ResolveAgentRouteInput`). -/
structure ResolveAgentRouteInput where
  cfg : OpenClawConfig
  channel : String
  account_id : Option String
  peer : Option RoutePeer
  parent_peer : Option RoutePeer
  guild_id : Option String
  team_id : Option String
deriving Repr

/-- Output of `resolve_agent_route` (`ResolvedAgentRoute`); `matched_by`
holds one of the seven `MatchedBy` literals. -/
structure ResolvedAgentRoute where
  agent_id : String
  channel : String
  account_id : String
  session_key : String
  main_session_key : String
  matched_by : String
deriving DecidableEq, Repr

/-- Model of `build_agent_session_key` (`routing/resolve_route.py` lines
264-302): normalizes the channel and delegates to the peer-key builder with
the default main key. -/
def build_agent_session_key (agent_id : String) (channel : String)
    (account_id : Option String) (peer : Option RoutePeer) (dm_scope : DmScope)
    (identity_links : Option (List (String × List String))) : String :=
  let channelNormalized := let t := normToken (some channel); if t = "" then "unknown" else t
  build_agent_peer_session_key agent_id (some DEFAULT_MAIN_KEY) channelNormalized
    account_id
    (some (match peer with | some p => p.kind.toStr | none => "direct"))
    (match peer with | some p => some (pyStrip p.id) | none => none)
    identity_links dm_scope

/-- First binding for which the effectful predicate returns `true`,
propagating a raised error, as the `for` loops of tiers 1 and 2. -/
def findMatchE (f : Binding → Except PyError Bool) :
    List Binding → Except PyError (Option Binding)
  | [] => .ok none
  | b :: rest =>
    match f b with
    | .error e => .error e
    | .ok true => .ok (some b)
    | .ok false => findMatchE f rest

/-- The tier-5/6 binding filter: a `match` present, account pattern equal to
(`wantWildcard = true`) or different from (`false`) the literal `*`, and no
truthy peer/guild/team predicate. -/
def accountTierPred (wantWildcard : Bool) (b : Binding) : Bool :=
  match b.matchSpec with
  | none => false
  | some m =>
    let accountIdMatch := pyStrip (m.account_id.getD "")
    (if wantWildcard then accountIdMatch = "*" else accountIdMatch ≠ "*") &&
      !peerTruthy m.peer && !(m.guild_id.getD "" ≠ "") && !(m.team_id.getD "" ≠ "")

/-- Model of `resolve_agent_route` (`routing/resolve_route.py` lines
305-445): filters bindings by channel and account, then tries the seven
match tiers in priority order. Raises (as `Except.error`) exactly where the
Python raises. -/
def resolve_agent_route (input : ResolveAgentRouteInput) :
    Except PyError ResolvedAgentRoute :=
  let channel := normToken (some input.channel)
  let accountId := let t := pyStrip (input.account_id.getD "");
    if t = "" then DEFAULT_ACCOUNT_ID else t
  let peer := input.peer.map (fun p => RoutePeer.mk p.kind (pyStrip p.id))
  let guildId := pyStrip (input.guild_id.getD "")
  let teamId := pyStrip (input.team_id.getD "")
  let dmScope := match input.cfg.session with
    | some s => s.dm_scope
    | none => DmScope.main
  let identityLinks := match input.cfg.session with
    | some s => s.identity_links
    | none => none
  let bindings := (list_bindings input.cfg).filter fun b =>
    _matches_channel b.matchSpec channel &&
      _matches_account_id (b.matchSpec.bind (fun m => m.account_id)) accountId
  let choose : String → String → ResolvedAgentRoute := fun agentId matchedBy =>
    let resolvedAgentId := _pick_first_existing_agent_id input.cfg agentId
    let sessionKey := pyLower (build_agent_session_key resolvedAgentId channel
      (some accountId) peer dmScope identityLinks)
    let mainSessionKey := pyLower (build_agent_main_session_key resolvedAgentId
      (some DEFAULT_MAIN_KEY))
    ⟨resolvedAgentId, channel, accountId, sessionKey, mainSessionKey, matchedBy⟩
  let tier1 : Except PyError (Option Binding) :=
    match peer with
    | some p => findMatchE (fun b => _matches_peer b.matchSpec p) bindings
    | none => .ok none
  match tier1 with
  | .error e => .error e
  | .ok (some b) => .ok (choose (b.agent_id.getD "") "binding.peer")
  | .ok none =>
    let parentPeer := input.parent_peer.map (fun p => RoutePeer.mk p.kind (pyStrip p.id))
    let tier2 : Except PyError (Option Binding) :=
      match parentPeer with
      | some p =>
        if p.id ≠ "" then findMatchE (fun b => _matches_peer b.matchSpec p) bindings
        else .ok none
      | none => .ok none
    match tier2 with
    | .error e => .error e
    | .ok (some b) => .ok (choose (b.agent_id.getD "") "binding.peer.parent")
    | .ok none =>
      match (if guildId ≠ "" then
          bindings.find? (fun b => _matches_guild b.matchSpec guildId) else none) with
      | some b => .ok (choose (b.agent_id.getD "") "binding.guild")
      | none =>
        match (if teamId ≠ "" then
            bindings.find? (fun b => _matches_team b.matchSpec teamId) else none) with
        | some b => .ok (choose (b.agent_id.getD "") "binding.team")
        | none =>
          match bindings.find? (accountTierPred false) with
          | some b => .ok (choose (b.agent_id.getD "") "binding.account")
          | none =>
            match bindings.find? (accountTierPred true) with
            | some b => .ok (choose (b.agent_id.getD "") "binding.channel")
            | none => .ok (choose (resolve_default_agent_id input.cfg) "default")

/-! ## Session records (`sessions/types.py`) -/

/-- JSON values as produced by `json.loads` (numbers restricted to the
integers that session records use; objects are insertion-ordered association
lists with the duplicate keys already collapsed by the JSON parser). -/
inductive Json where
  | null
  | bool (b : Bool)
  | num (n : Int)
  | str (s : String)
  | arr (elems : List Json)
  | obj (fields : List (String × Json))

/-- A `thread_id` value (`str | int`). -/
inductive ThreadId where
  | ofString (s : String)
  | ofInt (n : Int)
deriving DecidableEq, Repr

/-- Model of `SessionOrigin` (`sessions/types.py` lines 14-27); `from_w` and `to_w`
stand for the Python fields `from_` (JSON alias `from`) and `to`. -/
structure SessionOrigin where
  label : Option String
  provider : Option String
  surface : Option String
  chat_type : Option ChatType
  from_w : Option String
  to_w : Option String
  account_id : Option String
  thread_id : Option ThreadId
deriving DecidableEq, Repr

/-- Model of `SessionEntry` (`sessions/types.py` lines 30-92), field for
field in source order. `extra` is the free-form `dict[str, Any]` extension
map, modelled as a JSON object body. -/
structure SessionEntry where
  session_id : String
  updated_at : Int
  session_file : Option String
  spawned_by : Option String
  label : Option String
  display_name : Option String
  chat_type : Option ChatType
  channel : Option String
  group_id : Option String
  subject : Option String
  group_channel : Option String
  space : Option String
  origin : Option SessionOrigin
  last_channel : Option String
  last_to : Option String
  last_account_id : Option String
  last_thread_id : Option ThreadId
  aborted_last_run : Bool
  system_sent : Bool
  model_provider : Option String
  model : Option String
  context_tokens : Option Int
  input_tokens : Option Int
  output_tokens : Option Int
  total_tokens : Option Int
  compaction_count : Int
  provider_override : Option String
  model_override : Option String
  auth_profile_override : Option String
  send_policy : Option String
  group_activation : Option String
  extra : Option (List (String × Json))

/-- A partial update for `merge_session_entry`, in the typed view of the
Python `patch: dict[str, Any]`: `none` means the key is absent (for
`session_id` and `updated_at` a present `None` behaves like an absent key
and is folded into `none`), `some v` that the key is present with value
`v`. For optional record fields the inner `Option` is the nullable value
itself, so `some none` is a present explicit `null`. -/
structure SessionPatch where
  session_id : Option String
  updated_at : Option Int
  session_file : Option (Option String)
  spawned_by : Option (Option String)
  label : Option (Option String)
  display_name : Option (Option String)
  chat_type : Option (Option ChatType)
  channel : Option (Option String)
  group_id : Option (Option String)
  subject : Option (Option String)
  group_channel : Option (Option String)
  space : Option (Option String)
  origin : Option (Option SessionOrigin)
  last_channel : Option (Option String)
  last_to : Option (Option String)
  last_account_id : Option (Option String)
  last_thread_id : Option (Option ThreadId)
  aborted_last_run : Option Bool
  system_sent : Option Bool
  model_provider : Option (Option String)
  model : Option (Option String)
  context_tokens : Option (Option Int)
  input_tokens : Option (Option Int)
  output_tokens : Option (Option Int)
  total_tokens : Option (Option Int)
  compaction_count : Option Int
  provider_override : Option (Option String)
  model_override : Option (Option String)
  auth_profile_override : Option (Option String)
  send_policy : Option (Option String)
  group_activation : Option (Option String)
  extra : Option (Option (List (String × Json)))

/-- Non-inlined patch-over-existing field selection (`merged_data.update(patch)`
for one field): the patch value when the key is present, else the fallback. -/
def pField {a : Type} (p : Option a) (e : a) : a :=
  match p with
  | some v => v
  | none => e

/-- Non-inlined `Option.bind`, used to spell out the sequential pydantic
field validations. -/
def obind {a b : Type} (o : Option a) (f : a → Option b) : Option b :=
  match o with
  | some v => f v
  | none => none

/-- Model of `merge_session_entry` (`sessions/types.py` lines 95-143).
`nowMs` is the `int(time.time() * 1000)` reading and `freshId` the
generated `uuid4` string, both passed explicitly. `session_id` is
`patch.get("session_id") or (existing.session_id if existing else uuid)`:
a falsy (absent or empty) patch id falls back. `updated_at` is the maximum
of the existing value (0 when absent), the patch value (0 when absent) and
`nowMs`. With an existing record every other field is patch-over-existing
(`merged_data.update(patch)`); without one the record is built from the
patch with the model defaults. -/
def merge_session_entry (existing : Option SessionEntry) (patch : SessionPatch)
    (nowMs : Int) (freshId : String) : SessionEntry :=
  let fallbackId := match existing with
    | some e => e.session_id
    | none => freshId
  let sessionId := match patch.session_id with
    | some s => if s = "" then fallbackId else s
    | none => fallbackId
  let updatedAt :=
    max (max (match existing with | some e => e.updated_at | none => 0)
      (pField patch.updated_at 0)) nowMs
  match existing with
  | none =>
    ⟨sessionId, updatedAt,
      pField patch.session_file none, pField patch.spawned_by none,
      pField patch.label none, pField patch.display_name none,
      pField patch.chat_type none, pField patch.channel none,
      pField patch.group_id none, pField patch.subject none,
      pField patch.group_channel none, pField patch.space none,
      pField patch.origin none, pField patch.last_channel none,
      pField patch.last_to none, pField patch.last_account_id none,
      pField patch.last_thread_id none,
      pField patch.aborted_last_run false, pField patch.system_sent false,
      pField patch.model_provider none, pField patch.model none,
      pField patch.context_tokens none, pField patch.input_tokens none,
      pField patch.output_tokens none, pField patch.total_tokens none,
      pField patch.compaction_count 0,
      pField patch.provider_override none, pField patch.model_override none,
      pField patch.auth_profile_override none, pField patch.send_policy none,
      pField patch.group_activation none, pField patch.extra none⟩
  | some e =>
    ⟨sessionId, updatedAt,
      pField patch.session_file e.session_file, pField patch.spawned_by e.spawned_by,
      pField patch.label e.label, pField patch.display_name e.display_name,
      pField patch.chat_type e.chat_type, pField patch.channel e.channel,
      pField patch.group_id e.group_id, pField patch.subject e.subject,
      pField patch.group_channel e.group_channel, pField patch.space e.space,
      pField patch.origin e.origin, pField patch.last_channel e.last_channel,
      pField patch.last_to e.last_to, pField patch.last_account_id e.last_account_id,
      pField patch.last_thread_id e.last_thread_id,
      pField patch.aborted_last_run e.aborted_last_run,
      pField patch.system_sent e.system_sent,
      pField patch.model_provider e.model_provider, pField patch.model e.model,
      pField patch.context_tokens e.context_tokens, pField patch.input_tokens e.input_tokens,
      pField patch.output_tokens e.output_tokens, pField patch.total_tokens e.total_tokens,
      pField patch.compaction_count e.compaction_count,
      pField patch.provider_override e.provider_override,
      pField patch.model_override e.model_override,
      pField patch.auth_profile_override e.auth_profile_override,
      pField patch.send_policy e.send_policy,
      pField patch.group_activation e.group_activation, pField patch.extra e.extra⟩

/-! ## Session store loading (`sessions/store.py`) -/

/-- The parsed state of one store file, as seen after the file read and
`safe_parse_json` of `load_session_store`. Modelled from the spec for the
missing `openclaw_py.utils` module: `safe_parse_json` returns the parsed
JSON value or `None` for unparsable text ("a missing file or unparsable
content yields an empty map"), so a file is either missing
(`FileNotFoundError`), garbage (parse returns `None`), or parsed JSON. -/
inductive DiskFile where
  | missing
  | garbage
  | content (j : Json)

/-- Association-list lookup for store maps (first match, as a Python dict
with unique keys). -/
def lookupKey (k : String) : List (String × SessionEntry) → Option SessionEntry
  | [] => none
  | kv :: rest => if kv.1 = k then some kv.2 else lookupKey k rest

/-- Python dict assignment `store[key] = entry`: replace in place or append. -/
def upsert (store : List (String × SessionEntry)) (k : String) (e : SessionEntry) :
    List (String × SessionEntry) :=
  if store.any (fun kv => kv.1 = k) then
    store.map (fun kv => if kv.1 = k then (k, e) else kv)
  else store ++ [(k, e)]

/-- Lookup of a JSON object key. -/
def jLookup (k : String) : List (String × Json) → Option Json
  | [] => none
  | kv :: rest => if kv.1 = k then some kv.2 else jLookup k rest

/-- Validation of an optional string field: absent and `null` give `None`,
a string gives the string, anything else fails the record. -/
def vOptStr : Option Json → Option (Option String)
  | none => some none
  | some Json.null => some none
  | some (Json.str s) => some (some s)
  | some _ => none

/-- Validation of an optional integer field. -/
def vOptInt : Option Json → Option (Option Int)
  | none => some none
  | some Json.null => some none
  | some (Json.num n) => some (some n)
  | some _ => none

/-- Validation of a required string field (`session_id`). -/
def vReqStr : Option Json → Option String
  | some (Json.str s) => some s
  | _ => none

/-- Validation of a required integer field (`updated_at`). -/
def vReqInt : Option Json → Option Int
  | some (Json.num n) => some n
  | _ => none

/-- Validation of a defaulted boolean field. -/
def vBoolD (dflt : Bool) : Option Json → Option Bool
  | none => some dflt
  | some (Json.bool b) => some b
  | _ => none

/-- Validation of a defaulted integer field (`compaction_count`). -/
def vIntD (dflt : Int) : Option Json → Option Int
  | none => some dflt
  | some (Json.num n) => some n
  | _ => none

/-- Validation of the `ChatType` literal. -/
def vChatType : Option Json → Option (Option ChatType)
  | none => some none
  | some Json.null => some none
  | some (Json.str s) =>
    if s = "direct" then some (some ChatType.direct)
    else if s = "group" then some (some ChatType.group)
    else if s = "channel" then some (some ChatType.channel)
    else none
  | some _ => none

/-- Validation of a `str | int` thread-id field. -/
def vThreadId : Option Json → Option (Option ThreadId)
  | none => some none
  | some Json.null => some none
  | some (Json.str s) => some (some (ThreadId.ofString s))
  | some (Json.num n) => some (some (ThreadId.ofInt n))
  | some _ => none

/-- Validation of the nested `SessionOrigin` model (`populate_by_name`
accepts both the alias `from` and the field name `from_`). -/
def vOrigin : Option Json → Option (Option SessionOrigin)
  | none => some none
  | some Json.null => some none
  | some (Json.obj fields) =>
    obind (vOptStr (jLookup "label" fields)) fun label =>
    obind (vOptStr (jLookup "provider" fields)) fun provider =>
    obind (vOptStr (jLookup "surface" fields)) fun surface =>
    obind (vChatType (jLookup "chat_type" fields)) fun chatType =>
    obind (vOptStr ((jLookup "from" fields).orElse (fun _ => jLookup "from_" fields))) fun fromW =>
    obind (vOptStr (jLookup "to" fields)) fun toW =>
    obind (vOptStr (jLookup "account_id" fields)) fun accountId =>
    obind (vThreadId (jLookup "thread_id" fields)) fun threadId =>
    some (some ⟨label, provider, surface, chatType, fromW, toW, accountId, threadId⟩)
  | some _ => none

/-- Validation of the free-form `extra` map. -/
def vExtra : Option Json → Option (Option (List (String × Json)))
  | none => some none
  | some Json.null => some none
  | some (Json.obj fields) => some (some fields)
  | some _ => none

/-- The `SessionEntry(**value)` pydantic construction: validates every field
of a JSON object, failing (as the skipped-record `except Exception` branch)
when a required field is missing or a value has the wrong shape. Unknown
keys are ignored, as by the default pydantic model config. -/
def parseSessionEntry : Json → Option SessionEntry
  | Json.obj fields =>
    obind (vReqStr (jLookup "session_id" fields)) fun sessionId =>
    obind (vReqInt (jLookup "updated_at" fields)) fun updatedAt =>
    obind (vOptStr (jLookup "session_file" fields)) fun sessionFile =>
    obind (vOptStr (jLookup "spawned_by" fields)) fun spawnedBy =>
    obind (vOptStr (jLookup "label" fields)) fun label =>
    obind (vOptStr (jLookup "display_name" fields)) fun displayName =>
    obind (vChatType (jLookup "chat_type" fields)) fun chatType =>
    obind (vOptStr (jLookup "channel" fields)) fun channel =>
    obind (vOptStr (jLookup "group_id" fields)) fun groupId =>
    obind (vOptStr (jLookup "subject" fields)) fun subject =>
    obind (vOptStr (jLookup "group_channel" fields)) fun groupChannel =>
    obind (vOptStr (jLookup "space" fields)) fun space =>
    obind (vOrigin (jLookup "origin" fields)) fun origin =>
    obind (vOptStr (jLookup "last_channel" fields)) fun lastChannel =>
    obind (vOptStr (jLookup "last_to" fields)) fun lastTo =>
    obind (vOptStr (jLookup "last_account_id" fields)) fun lastAccountId =>
    obind (vThreadId (jLookup "last_thread_id" fields)) fun lastThreadId =>
    obind (vBoolD false (jLookup "aborted_last_run" fields)) fun abortedLastRun =>
    obind (vBoolD false (jLookup "system_sent" fields)) fun systemSent =>
    obind (vOptStr (jLookup "model_provider" fields)) fun modelProvider =>
    obind (vOptStr (jLookup "model" fields)) fun model =>
    obind (vOptInt (jLookup "context_tokens" fields)) fun contextTokens =>
    obind (vOptInt (jLookup "input_tokens" fields)) fun inputTokens =>
    obind (vOptInt (jLookup "output_tokens" fields)) fun outputTokens =>
    obind (vOptInt (jLookup "total_tokens" fields)) fun totalTokens =>
    obind (vIntD 0 (jLookup "compaction_count" fields)) fun compactionCount =>
    obind (vOptStr (jLookup "provider_override" fields)) fun providerOverride =>
    obind (vOptStr (jLookup "model_override" fields)) fun modelOverride =>
    obind (vOptStr (jLookup "auth_profile_override" fields)) fun authProfileOverride =>
    obind (vOptStr (jLookup "send_policy" fields)) fun sendPolicy =>
    obind (vOptStr (jLookup "group_activation" fields)) fun groupActivation =>
    obind (vExtra (jLookup "extra" fields)) fun extra =>
    some ⟨sessionId, updatedAt, sessionFile, spawnedBy, label, displayName,
      chatType, channel, groupId, subject, groupChannel, space, origin,
      lastChannel, lastTo, lastAccountId, lastThreadId, abortedLastRun,
      systemSent, modelProvider, model, contextTokens, inputTokens,
      outputTokens, totalTokens, compactionCount, providerOverride,
      modelOverride, authProfileOverride, sendPolicy, groupActivation, extra⟩
  | _ => none

/-- Model of `load_session_store` (`sessions/store.py` lines 95-163) at the
parse level (the cache layer only changes which bytes are read, not how a
parsed file maps to records). A missing file (`FileNotFoundError`) and
unparsable or non-object content give the empty map; each object entry is
converted with `SessionEntry(**value)` and individually skipped on a
validation failure. -/
def load_session_store (file : DiskFile) : List (String × SessionEntry) :=
  match file with
  | DiskFile.missing => []
  | DiskFile.garbage => []
  | DiskFile.content j =>
    match j with
    | Json.obj fields =>
      fields.foldl
        (fun store kv =>
          match parseSessionEntry kv.2 with
          | some e => upsert store kv.1 e
          | none => store)
        []
    | _ => []

/-! ## Session store maintenance and the per-path lock
(`sessions/store.py`)

`save_session_store` and `update_session_store` both guard the store file
with the per-path `asyncio.Lock` from `_get_store_lock`. The lock is
process-local and *not reentrant*: a task that `await`s a lock it already
holds blocks forever, because only that task could release it. A run of one
store operation is therefore modelled as a function from the store state to
`Option` of the result state: `none` means the operation never completes.
-/

/-- Default prune age (`DEFAULT_SESSION_PRUNE_AFTER_MS`, 30 days). -/
def DEFAULT_SESSION_PRUNE_AFTER_MS : Int := 30 * 24 * 60 * 60 * 1000

/-- Default entry cap (`DEFAULT_SESSION_MAX_ENTRIES`). -/
def DEFAULT_SESSION_MAX_ENTRIES : Nat := 500

/-- Model of `prune_stale_entries` (`sessions/store.py` lines 196-229):
drop entries with `updated_at` older than `now - max_age` (`max_age_ms or
DEFAULT` — a zero or absent argument uses the default). The Python mutates
in place and returns a count; the model returns the surviving map. -/
def prune_stale_entries (store : List (String × SessionEntry))
    (maxAgeMs : Option Int) (nowMs : Int) : List (String × SessionEntry) :=
  let maxAge := match maxAgeMs with
    | none => DEFAULT_SESSION_PRUNE_AFTER_MS
    | some m => if m = 0 then DEFAULT_SESSION_PRUNE_AFTER_MS else m
  let cutoffMs := nowMs - maxAge
  store.filter (fun kv => !(kv.2.updated_at < cutoffMs))

/-- Model of `cap_entry_count` (`sessions/store.py` lines 232-270): when the
map exceeds the cap, sort the keys by `updated_at` descending (stably, as
Python `sorted(..., reverse=True)`) and delete all but the first
`max_entries` of them. -/
def cap_entry_count (store : List (String × SessionEntry))
    (maxEntries : Option Nat) : List (String × SessionEntry) :=
  let maxCount := match maxEntries with
    | none => DEFAULT_SESSION_MAX_ENTRIES
    | some m => if m = 0 then DEFAULT_SESSION_MAX_ENTRIES else m
  if store.length ≤ maxCount then store
  else
    let sortedEntries := store.mergeSort (fun a b => b.2.updated_at ≤ a.2.updated_at)
    let toRemove := (sortedEntries.drop maxCount).map (fun kv => kv.1)
    store.filter (fun kv => !(toRemove.contains kv.1))

/-- The process state relevant to one store path: whether its
`asyncio.Lock` is currently held, the cached copy (if any), and the on-disk
map. File rotation only renames the old payload to a backup before the new
payload is written, so it does not appear in the abstract disk state. -/
structure StoreSt where
  lockHeld : Bool
  cache : Option (List (String × SessionEntry))
  disk : List (String × SessionEntry)

/-- Run of `save_session_store` (`sessions/store.py` lines 364-424) against
a store state: `async with lock` first — if the lock is already held by the
running task the `await` never completes (`none`). Otherwise the cache is
invalidated, maintenance (prune, cap, rotate) runs unless skipped, the
serialized map is written atomically, and the lock is released. -/
def save_session_store (st : StoreSt) (store : List (String × SessionEntry))
    (skipMaintenance : Bool) (nowMs : Int) : Option StoreSt :=
  if st.lockHeld then none
  else
    let maintained :=
      if skipMaintenance then store
      else cap_entry_count (prune_stale_entries store none nowMs) none
    some (StoreSt.mk false none maintained)

/-- Run of `update_session_store` (`sessions/store.py` lines 429-461):
`async with lock`, re-read the store bypassing the cache, apply the
mutator, persist through `save_session_store` — which `await`s the same
per-path lock, still held here, so the nested acquisition never returns —
then release and hand back the mutator result. -/
def update_session_store {α : Type} (st : StoreSt)
    (mutator : List (String × SessionEntry) → List (String × SessionEntry) × α)
    (skipMaintenance : Bool) (nowMs : Int) : Option (StoreSt × α) :=
  if st.lockHeld then none
  else
    let held := StoreSt.mk true st.cache st.disk
    let loaded := held.disk
    let mutated := mutator loaded
    match save_session_store held mutated.1 skipMaintenance nowMs with
    | none => none
    | some st2 => some (StoreSt.mk false st2.cache st2.disk, mutated.2)

/-! ## Concrete instances used by the verification -/

/-- A session entry with the given identity and timestamp and every other
field at its model default. -/
def baseEntry (sid : String) (ts : Int) : SessionEntry :=
  ⟨sid, ts, none, none, none, none, none, none, none, none, none, none, none,
    none, none, none, none, false, false, none, none, none, none, none, none,
    0, none, none, none, none, none, none⟩

/-- An empty patch: every key absent. -/
def emptyPatch : SessionPatch :=
  ⟨none, none, none, none, none, none, none, none, none, none, none, none,
    none, none, none, none, none, none, none, none, none, none, none, none,
    none, none, none, none, none, none, none, none⟩

/-- A patch carrying a present but empty `session_id` and nothing else. -/
def emptySidPatch : SessionPatch :=
  ⟨some "", none, none, none, none, none, none, none, none, none, none, none,
    none, none, none, none, none, none, none, none, none, none, none, none,
    none, none, none, none, none, none, none, none⟩

/-- Configuration with one binding whose `match.peer` is a non-empty plain
dict, as a JSON-loaded binding `{agentId: "vip", match: {channel:
"telegram", accountId: "*", peer: {kind: "direct", id: "u1"}}}`. -/
def c1Cfg : OpenClawConfig :=
  ⟨none,
    some [⟨some "vip",
      some ⟨some "telegram", some "*",
        some (PeerMatchVal.dictPeer [("kind", "direct"), ("id", "u1")]),
        none, none⟩⟩],
    none⟩

/-- Resolution input delivering a direct peer to `c1Cfg`. -/
def c1Input : ResolveAgentRouteInput :=
  ⟨c1Cfg, "telegram", none, some ⟨ChatType.direct, "u1"⟩, none, none, none⟩

/-- Configuration of the C3 scenario: binding `{agentId: "support", match:
{channel: "telegram", accountId: "*"}}` and no configured agent list. -/
def c3Cfg : OpenClawConfig :=
  ⟨none,
    some [⟨some "support",
      some ⟨some "telegram", some "*", none, none, none⟩⟩],
    none⟩

/-- Resolution input of the C3 scenario (`channel="telegram"`,
`accountId="bot1"`). -/
def c3Input : ResolveAgentRouteInput :=
  ⟨c3Cfg, "telegram", some "bot1", none, none, none, none⟩

/-- The 65-character id `aaa…a@b` (63 `a`s) whose normalization truncates to
a trailing dash. -/
def c6Str : String := String.mk (List.replicate 63 'a' ++ ['@', 'b'])

/-- A patch carrying only a `session_id`. -/
def sidPatch (s : String) : SessionPatch :=
  ⟨some s, none, none, none, none, none, none, none, none, none, none, none,
    none, none, none, none, none, none, none, none, none, none, none, none,
    none, none, none, none, none, none, none, none⟩

/-- The store file of the repo's `test_load_skips_invalid_entries`: one
valid record under `valid`, one record missing its required fields under
`invalid`. -/
def c7File : DiskFile :=
  DiskFile.content (Json.obj
    [("valid", Json.obj [("session_id", Json.str "123"), ("updated_at", Json.num 1000)]),
     ("invalid", Json.obj [("label", Json.str "Bad Entry")])])

/-! ## Character-level lemmas -/

theorem pyLowerChar_eq_self {c : Char} (h : ¬(65 ≤ c.toNat ∧ c.toNat ≤ 90)) :
    pyLowerChar c = c := by
  unfold pyLowerChar
  rw [if_neg]
  simpa using h

theorem pyLowerChar_toNat_of_upper {c : Char} (h1 : 65 ≤ c.toNat) (h2 : c.toNat ≤ 90) :
    (pyLowerChar c).toNat = c.toNat + 32 := by
  unfold pyLowerChar
  rw [if_pos (by simp [h1, h2])]
  have hv : Nat.isValidChar (c.toNat + 32) := Or.inl (by omega)
  rw [Char.ofNat, dif_pos hv]
  rfl

theorem isLowerIdChar_iff {c : Char} :
    isLowerIdChar c = true ↔
      (97 ≤ c.toNat ∧ c.toNat ≤ 122) ∨ (48 ≤ c.toNat ∧ c.toNat ≤ 57) ∨
        c.toNat = 95 ∨ c.toNat = 45 := by
  simp [isLowerIdChar, isLowerAlphaNum, Bool.or_eq_true, Bool.and_eq_true,
    decide_eq_true_eq, or_assoc]

theorem isIdCharCI_iff {c : Char} :
    isIdCharCI c = true ↔
      (97 ≤ c.toNat ∧ c.toNat ≤ 122) ∨ (48 ≤ c.toNat ∧ c.toNat ≤ 57) ∨
        (65 ≤ c.toNat ∧ c.toNat ≤ 90) ∨ c.toNat = 95 ∨ c.toNat = 45 := by
  simp [isIdCharCI, isAlphaNumCI, isLowerAlphaNum, Bool.or_eq_true,
    Bool.and_eq_true, decide_eq_true_eq, or_assoc]

theorem isAlphaNumCI_iff {c : Char} :
    isAlphaNumCI c = true ↔
      (97 ≤ c.toNat ∧ c.toNat ≤ 122) ∨ (48 ≤ c.toNat ∧ c.toNat ≤ 57) ∨
        (65 ≤ c.toNat ∧ c.toNat ≤ 90) := by
  simp [isAlphaNumCI, isLowerAlphaNum, Bool.or_eq_true, Bool.and_eq_true,
    decide_eq_true_eq, or_assoc]

theorem pyLowerChar_of_lowerId {c : Char} (h : isLowerIdChar c = true) :
    pyLowerChar c = c := by
  rcases isLowerIdChar_iff.mp h with h1 | h1 | h1 | h1 <;>
    exact pyLowerChar_eq_self (by omega)

theorem isLowerIdChar_pyLowerChar {c : Char} (h : isIdCharCI c = true) :
    isLowerIdChar (pyLowerChar c) = true := by
  rcases isIdCharCI_iff.mp h with h1 | h1 | h1 | h1 | h1
  · rw [pyLowerChar_eq_self (by omega)]; exact isLowerIdChar_iff.mpr (Or.inl h1)
  · rw [pyLowerChar_eq_self (by omega)]; exact isLowerIdChar_iff.mpr (Or.inr (Or.inl h1))
  · refine isLowerIdChar_iff.mpr (Or.inl ?_)
    rw [pyLowerChar_toNat_of_upper h1.1 h1.2]
    omega
  · rw [pyLowerChar_eq_self (by omega)]
    exact isLowerIdChar_iff.mpr (Or.inr (Or.inr (Or.inl h1)))
  · rw [pyLowerChar_eq_self (by omega)]
    exact isLowerIdChar_iff.mpr (Or.inr (Or.inr (Or.inr h1)))

theorem isPyWs_toNat {c : Char} (h : isPyWs c = true) :
    c.toNat = 32 ∨ c.toNat = 9 ∨ c.toNat = 10 ∨ c.toNat = 13 ∨
      c.toNat = 11 ∨ c.toNat = 12 := by
  simp only [isPyWs, Bool.or_eq_true, decide_eq_true_eq] at h
  rcases h with ((((h | h) | h) | h) | h) | h <;> subst h <;> decide

theorem not_isPyWs_of_lowerId {c : Char} (h : isLowerIdChar c = true) :
    isPyWs c = false := by
  cases hw : isPyWs c
  · rfl
  · exfalso
    rcases isLowerIdChar_iff.mp h with h1 | h1 | h1 | h1 <;>
      rcases isPyWs_toNat hw with h2 | h2 | h2 | h2 | h2 | h2 <;> omega

theorem ne_colon_of_lowerId {c : Char} (h : isLowerIdChar c = true) : c ≠ ':' := by
  intro he
  subst he
  exact absurd h (by decide)

theorem not_isPyWs_pyLowerChar {c : Char} (h : isPyWs c = false) :
    isPyWs (pyLowerChar c) = false := by
  by_cases hu : 65 ≤ c.toNat ∧ c.toNat ≤ 90
  · cases hw : isPyWs (pyLowerChar c)
    · rfl
    · exfalso
      rcases isPyWs_toNat hw with h2 | h2 | h2 | h2 | h2 | h2 <;>
        rw [pyLowerChar_toNat_of_upper hu.1 hu.2] at h2 <;> omega
  · rwa [pyLowerChar_eq_self hu]

/-! ## Trim lemmas -/

theorem head?_dropWhile_false {p : Char → Bool} {c : Char} :
    ∀ {l : List Char}, (l.dropWhile p).head? = some c → p c = false := by
  intro l
  induction l with
  | nil => intro h; simp at h
  | cons x xs ih =>
    intro h
    by_cases hx : p x
    · rw [List.dropWhile_cons_of_pos hx] at h
      exact ih h
    · rw [List.dropWhile_cons_of_neg hx] at h
      have hxc : x = c := by simpa using h
      subst hxc
      simpa using hx

theorem trimLeftL_eq_self {l : List Char}
    (h : ∀ c, l.head? = some c → isPyWs c = false) : trimLeftL l = l := by
  unfold trimLeftL
  cases l with
  | nil => rfl
  | cons x xs => rw [List.dropWhile_cons_of_neg (by simp [h x rfl])]

theorem trimRightL_eq_self {l : List Char}
    (h : ∀ c, l.getLast? = some c → isPyWs c = false) : trimRightL l = l := by
  unfold trimRightL
  cases hr : l.reverse with
  | nil =>
    have : l = [] := by simpa using congrArg List.reverse hr
    simp [this]
  | cons x xs =>
    have hx : l.getLast? = some x := by
      rw [List.getLast?_eq_head?_reverse, hr]; rfl
    rw [List.dropWhile_cons_of_neg (by simp [h x hx]), ← hr, List.reverse_reverse]

theorem trimL_eq_self {l : List Char}
    (hh : ∀ c, l.head? = some c → isPyWs c = false)
    (hg : ∀ c, l.getLast? = some c → isPyWs c = false) : trimL l = l := by
  unfold trimL
  rw [trimLeftL_eq_self hh, trimRightL_eq_self hg]

theorem trimL_eq_self_of_all {l : List Char}
    (h : ∀ c ∈ l, isPyWs c = false) : trimL l = l := by
  refine trimL_eq_self (fun c hc => h c ?_) (fun c hc => h c ?_)
  · cases l with
    | nil => simp at hc
    | cons x xs => simp at hc; simp [hc]
  · exact List.mem_of_mem_getLast? hc

theorem trimRightL_getLast_not_ws {l : List Char} {c : Char}
    (h : (trimRightL l).getLast? = some c) : isPyWs c = false := by
  unfold trimRightL at h
  rw [List.getLast?_eq_head?_reverse, List.reverse_reverse] at h
  exact head?_dropWhile_false h

theorem trimL_getLast_not_ws {l : List Char} {c : Char}
    (h : (trimL l).getLast? = some c) : isPyWs c = false :=
  trimRightL_getLast_not_ws h

theorem trimRightL_head? {l : List Char} {c : Char}
    (h : (trimRightL l).head? = some c) : l.head? = some c := by
  have hdecomp : l = trimRightL l ++ (l.reverse.takeWhile isPyWs).reverse := by
    unfold trimRightL
    have := List.takeWhile_append_dropWhile (p := isPyWs) (l := l.reverse)
    calc l = l.reverse.reverse := (List.reverse_reverse l).symm
    _ = (l.reverse.takeWhile isPyWs ++ l.reverse.dropWhile isPyWs).reverse := by rw [this]
    _ = (l.reverse.dropWhile isPyWs).reverse ++ (l.reverse.takeWhile isPyWs).reverse := by
        rw [List.reverse_append]
  rw [hdecomp, List.head?_append, h]
  rfl

theorem trimL_head_not_ws {l : List Char} {c : Char}
    (h : (trimL l).head? = some c) : isPyWs c = false := by
  unfold trimL at h
  have h2 : (trimLeftL l).head? = some c := trimRightL_head? h
  unfold trimLeftL at h2
  exact head?_dropWhile_false h2

/-! ## Colon-split lemmas -/

theorem splitColonAux_append (b : List Char) :
    ∀ (a : List Char) (acc : List Char),
      splitColonAux acc (a ++ ':' :: b) = splitColonAux acc a ++ splitColon b := by
  intro a
  induction a with
  | nil => intro acc; simp [splitColonAux, splitColon]
  | cons x xs ih =>
    intro acc
    by_cases hx : x = ':'
    · subst hx
      simp [splitColonAux, ih]
    · simp [splitColonAux, hx, ih]

theorem nes_append_colon (a b : List Char) :
    nonemptySegs (a ++ ':' :: b) = nonemptySegs a ++ nonemptySegs b := by
  unfold nonemptySegs splitColon
  rw [splitColonAux_append b a [], List.filter_append]
  rfl

theorem splitColonAux_no_colon :
    ∀ {l : List Char}, (∀ c ∈ l, c ≠ ':') →
      ∀ acc, splitColonAux acc l = [acc.reverse ++ l] := by
  intro l
  induction l with
  | nil => intro _ acc; simp [splitColonAux]
  | cons x xs ih =>
    intro h acc
    have hx : x ≠ ':' := h x (by simp)
    simp only [splitColonAux, if_neg hx]
    rw [ih (fun c hc => h c (by simp [hc])) (x :: acc)]
    simp

theorem nes_no_colon {l : List Char} (hne : l ≠ []) (h : ∀ c ∈ l, c ≠ ':') :
    nonemptySegs l = [l] := by
  unfold nonemptySegs splitColon
  rw [splitColonAux_no_colon h []]
  simp [hne]

theorem nes_filter_ne_nil :
    ∀ (l : List Char) (acc : List Char), acc ≠ [] →
      (splitColonAux acc l).filter (fun p => p ≠ []) ≠ [] := by
  intro l
  induction l with
  | nil =>
    intro acc hacc
    simp [splitColonAux, hacc]
  | cons x xs ih =>
    intro acc hacc
    by_cases hx : x = ':'
    · subst hx
      simp only [splitColonAux, if_pos rfl]
      have : acc.reverse ≠ [] := by simpa using hacc
      simp [List.filter_cons, this]
    · simp only [splitColonAux, if_neg hx]
      exact ih (x :: acc) (by simp)

theorem nes_ne_nil_of_mem {l : List Char} {c : Char} (hc : c ∈ l) (hne : c ≠ ':') :
    nonemptySegs l ≠ [] := by
  unfold nonemptySegs splitColon
  induction l with
  | nil => simp at hc
  | cons x xs ih =>
    by_cases hx : x = ':'
    · subst hx
      simp only [splitColonAux, if_pos rfl]
      have hcx : c ∈ xs := by
        cases hc with
        | head => exact absurd rfl hne
        | tail _ h => exact h
      simpa [List.filter_cons] using ih hcx
    · simp only [splitColonAux, if_neg hx]
      exact nes_filter_ne_nil xs [x] (by simp)

theorem nes_all_colon {l : List Char} (h : ∀ c ∈ l, c = ':') :
    nonemptySegs l = [] := by
  unfold nonemptySegs splitColon
  induction l with
  | nil => simp [splitColonAux]
  | cons x xs ih =>
    have hx : x = ':' := h x (by simp)
    subst hx
    simp only [splitColonAux, if_pos rfl]
    simpa [List.filter_cons] using ih (fun c hc => h c (by simp [hc]))

theorem mem_nes_ne_nil {l : List Char} {p : List Char} (h : p ∈ nonemptySegs l) :
    p ≠ [] := by
  have := List.of_mem_filter h
  simpa using this

theorem joinColon_ne_nil {p : List Char} {ps : List (List Char)} (h : p ≠ []) :
    joinColon (p :: ps) ≠ [] := by
  cases ps with
  | nil => simpa [joinColon] using h
  | cons q qs => simp [joinColon]

/-! ## Parse characterization lemmas -/

theorem trimL_idem (l : List Char) : trimL (trimL l) = trimL l := by
  refine trimL_eq_self (fun c hc => trimL_head_not_ws hc)
    (fun c hc => trimL_getLast_not_ws hc)

theorem parse_of_trim (s : String) :
    parse_agent_session_key (some (String.mk (trimL s.data))) =
      parse_agent_session_key (some s) := by
  show parseRawSegs (trimL (trimL s.data)) = parseRawSegs (trimL s.data)
  rw [trimL_idem]

theorem parseRawSegs_isSome_iff (raw : List Char) :
    (parseRawSegs raw).isSome = true ↔
      ∃ p1 p2 ps, nonemptySegs raw = "agent".data :: p1 :: p2 :: ps ∧
        trimL p1 ≠ [] := by
  unfold parseRawSegs
  by_cases hraw : raw = []
  · subst hraw
    have hnil : nonemptySegs ([] : List Char) = [] := rfl
    simp [hnil]
  · rw [if_neg hraw]
    cases hsegs : nonemptySegs raw with
    | nil => simp [hsegs]
    | cons p0 tail0 =>
      cases tail0 with
      | nil => simp
      | cons p1 tail1 =>
        cases tail1 with
        | nil => simp
        | cons p2 ps =>
          have hp2 : p2 ≠ [] := mem_nes_ne_nil (l := raw) (by rw [hsegs]; simp)
          have hrest : joinColon (p2 :: ps) ≠ [] := joinColon_ne_nil hp2
          by_cases hp0 : p0 = "agent".data
          · subst hp0
            by_cases hp1 : trimL p1 = [] <;> simp [hp1, hrest]
          · simp [hp0, Ne.symm hp0]

theorem parse_isSome_iff (key : String) :
    (parse_agent_session_key (some key)).isSome = true ↔
      ∃ p1 p2 ps, nonemptySegs (trimL key.data) = "agent".data :: p1 :: p2 :: ps ∧
        trimL p1 ≠ [] :=
  parseRawSegs_isSome_iff (trimL key.data)

theorem classify_of_parse_isSome {key : String}
    (h : (parse_agent_session_key (some key)).isSome = true) :
    classify_session_key_shape (some key) = "agent" := by
  unfold classify_session_key_shape
  by_cases hraw : trimL key.data = []
  · exfalso
    have hb : parse_agent_session_key (some key) = parseRawSegs (trimL key.data) := rfl
    rw [hb, hraw] at h
    simp [parseRawSegs] at h
  · rw [show (some key).getD "" = key from rfl, if_neg hraw, parse_of_trim, if_pos h]

theorem classify_of_parse_none {key : Option String}
    (h : parse_agent_session_key key = none) :
    classify_session_key_shape key = "missing" ∨
      classify_session_key_shape key = "malformed_agent" ∨
      classify_session_key_shape key = "legacy_or_alias" := by
  cases key with
  | none =>
    left
    rfl
  | some s =>
    unfold classify_session_key_shape
    by_cases hraw : trimL s.data = []
    · left
      rw [show (some s).getD "" = s from rfl, if_pos hraw]
    · rw [show (some s).getD "" = s from rfl, if_neg hraw, parse_of_trim, h]
      by_cases hag : matchesAt "agent:".data (lowerL (trimL s.data)) = true
      · right; left
        simp [hag]
      · right; right
        simp [hag]

/-! ## Normalization lemmas -/

theorem validIdTail_chars : ∀ {l : List Char}, validIdTail l = true →
    ∀ c ∈ l, isIdCharCI c = true := by
  intro l
  induction l with
  | nil => intro _ c hc; simp at hc
  | cons d rest ih =>
    intro h c hc
    cases rest with
    | nil =>
      have hd : isAlphaNumCI d = true := by simpa [validIdTail] using h
      have hcd : c = d := by simpa using hc
      subst hcd
      simp [isIdCharCI, hd]
    | cons e rest2 =>
      have h2 : isIdCharCI d = true ∧ validIdTail (e :: rest2) = true := by
        simpa [validIdTail, Bool.and_eq_true] using h
      rcases List.mem_cons.mp hc with hceq | hcmem
      · subst hceq; exact h2.1
      · exact ih h2.2 c hcmem

theorem validIdMatch_chars {l : List Char} (h : validIdMatch l = true) :
    ∀ c ∈ l, isIdCharCI c = true := by
  intro c hc
  cases l with
  | nil => simp at hc
  | cons x xs =>
    have h2 : isAlphaNumCI x = true ∧ validIdTail xs = true := by
      simpa [validIdMatch, Bool.and_eq_true] using h
    rcases List.mem_cons.mp hc with hceq | hcmem
    · subst hceq; simp [isIdCharCI, h2.1]
    · exact validIdTail_chars h2.2 c hcmem

theorem collapseAux_chars : ∀ (b : Bool) {l : List Char} {c : Char},
    c ∈ collapseAux b l → isLowerIdChar c = true := by
  intro b l
  induction l generalizing b with
  | nil => intro c hc; simp [collapseAux] at hc
  | cons x xs ih =>
    intro c hc
    by_cases hx : isLowerIdChar x = true
    · rw [collapseAux, if_pos hx] at hc
      rcases List.mem_cons.mp hc with hceq | hcmem
      · subst hceq; exact hx
      · exact ih false hcmem
    · rw [collapseAux, if_neg hx] at hc
      cases b with
      | true =>
        rw [if_pos rfl] at hc
        exact ih true hc
      | false =>
        rw [if_neg (by simp)] at hc
        rcases List.mem_cons.mp hc with hceq | hcmem
        · subst hceq; decide
        · exact ih true hcmem

theorem mem_dropLeadingDashes {l : List Char} {c : Char}
    (h : c ∈ dropLeadingDashes l) : c ∈ l :=
  (List.dropWhile_sublist _).subset h

theorem mem_dropTrailingDashes {l : List Char} {c : Char}
    (h : c ∈ dropTrailingDashes l) : c ∈ l := by
  unfold dropTrailingDashes at h
  rw [List.mem_reverse] at h
  exact List.mem_reverse.mp ((List.dropWhile_sublist _).subset h)

theorem normalizeIdL_chars {dflt : List Char}
    (hd : ∀ c ∈ dflt, isLowerIdChar c = true) (l : List Char) :
    ∀ c ∈ normalizeIdL dflt l, isLowerIdChar c = true := by
  intro c hc
  unfold normalizeIdL at hc
  by_cases h1 : trimL l = []
  · rw [if_pos h1] at hc
    exact hd c hc
  · rw [if_neg h1] at hc
    by_cases h2 : (validIdMatch (trimL l) && decide ((trimL l).length ≤ 64)) = true
    · rw [if_pos h2] at hc
      obtain ⟨c0, hc0, rfl⟩ := List.mem_map.mp hc
      exact isLowerIdChar_pyLowerChar
        (validIdMatch_chars ((Bool.and_eq_true _ _).mp h2).1 c0 hc0)
    · rw [if_neg h2] at hc
      by_cases h5 :
        (dropTrailingDashes (dropLeadingDashes (collapseInvalid (lowerL (trimL l))))).take 64 = []
      · rw [if_pos h5] at hc
        exact hd c hc
      · rw [if_neg h5] at hc
        have hm : c ∈ collapseInvalid (lowerL (trimL l)) :=
          mem_dropLeadingDashes (mem_dropTrailingDashes
            ((List.take_sublist _ _).subset hc))
        exact collapseAux_chars false hm

theorem normalizeIdL_ne_nil {dflt : List Char} (hd : dflt ≠ []) (l : List Char) :
    normalizeIdL dflt l ≠ [] := by
  unfold normalizeIdL
  by_cases h1 : trimL l = []
  · rw [if_pos h1]; exact hd
  · rw [if_neg h1]
    by_cases h2 : (validIdMatch (trimL l) && decide ((trimL l).length ≤ 64)) = true
    · rw [if_pos h2]
      simpa [lowerL] using h1
    · rw [if_neg h2]
      by_cases h5 :
        (dropTrailingDashes (dropLeadingDashes (collapseInvalid (lowerL (trimL l))))).take 64 = []
      · rw [if_pos h5]; exact hd
      · rw [if_neg h5]; exact h5

theorem normalize_agent_id_chars (x : Option String) :
    ∀ c ∈ (normalize_agent_id x).data, isLowerIdChar c = true :=
  normalizeIdL_chars (by decide) ((x.getD "").data)

theorem normalize_agent_id_ne_nil (x : Option String) :
    (normalize_agent_id x).data ≠ [] :=
  normalizeIdL_ne_nil (by decide) ((x.getD "").data)

theorem normalize_account_id_chars (x : Option String) :
    ∀ c ∈ (normalize_account_id x).data, isLowerIdChar c = true :=
  normalizeIdL_chars (by decide) ((x.getD "").data)

theorem normalize_account_id_ne_nil (x : Option String) :
    (normalize_account_id x).data ≠ [] :=
  normalizeIdL_ne_nil (by decide) ((x.getD "").data)

theorem lowerL_eq_self_of_lowerId {l : List Char}
    (h : ∀ c ∈ l, isLowerIdChar c = true) : lowerL l = l := by
  induction l with
  | nil => rfl
  | cons c rest ih =>
    have hc := pyLowerChar_of_lowerId (h c (List.mem_cons_self c rest))
    have hr := ih (fun d hd => h d (List.mem_cons_of_mem c hd))
    simp [lowerL] at hr ⊢
    exact ⟨hc, hr⟩

theorem collapseAux_eq_self {l : List Char}
    (h : ∀ c ∈ l, isLowerIdChar c = true) : ∀ b, collapseAux b l = l := by
  induction l with
  | nil => intro b; rfl
  | cons c rest ih =>
    intro b
    show (if isLowerIdChar c then c :: collapseAux false rest
      else if b then collapseAux true rest else '-' :: collapseAux true rest) = c :: rest
    rw [if_pos (h c (List.mem_cons_self c rest)),
      ih (fun d hd => h d (List.mem_cons_of_mem c hd)) false]

theorem dropLeadingDashes_eq_self {l : List Char}
    (h : l.head? ≠ some '-') : dropLeadingDashes l = l := by
  cases l with
  | nil => rfl
  | cons c rest =>
    have hc : ¬(c = '-') := fun he => h (by rw [he]; rfl)
    simp [dropLeadingDashes, List.dropWhile_cons, hc]

theorem dropTrailingDashes_eq_self {l : List Char}
    (h : l.getLast? ≠ some '-') : dropTrailingDashes l = l := by
  have h2 : l.reverse.head? ≠ some '-' := by rw [List.head?_reverse]; exact h
  have h3 : dropLeadingDashes l.reverse = l.reverse := dropLeadingDashes_eq_self h2
  unfold dropLeadingDashes at h3
  unfold dropTrailingDashes
  rw [h3, List.reverse_reverse]

theorem dropTrailingDashes_isPrefix (l : List Char) :
    dropTrailingDashes l <+: l := by
  refine List.reverse_suffix.mp ?_
  show ((l.reverse.dropWhile (fun c => c = '-')).reverse).reverse <:+ l.reverse
  rw [List.reverse_reverse]
  exact List.dropWhile_suffix _

theorem isPrefix_head? {l t : List Char} {c : Char} (hp : t <+: l)
    (h : t.head? = some c) : l.head? = some c := by
  obtain ⟨r, hr⟩ := hp
  cases t with
  | nil => simp at h
  | cons x xs =>
    have hx : x = c := by simpa using h
    rw [← hr, hx]
    rfl

theorem pyLowerChar_alphaNum_ne_dash {c : Char} (h : isAlphaNumCI c = true) :
    pyLowerChar c ≠ '-' := by
  intro he
  have h45 : (pyLowerChar c).toNat = 45 := by rw [he]; rfl
  rcases isAlphaNumCI_iff.mp h with h1 | h1 | h1
  · rw [pyLowerChar_eq_self (by omega)] at h45; omega
  · rw [pyLowerChar_eq_self (by omega)] at h45; omega
  · rw [pyLowerChar_toNat_of_upper h1.1 h1.2] at h45; omega

theorem normalizeIdL_length_le {dflt : List Char} (hd : dflt.length ≤ 64)
    (l : List Char) : (normalizeIdL dflt l).length ≤ 64 := by
  unfold normalizeIdL
  by_cases h1 : trimL l = []
  · rw [if_pos h1]; exact hd
  · rw [if_neg h1]
    by_cases h2 : (validIdMatch (trimL l) && decide ((trimL l).length ≤ 64)) = true
    · rw [if_pos h2]
      have h3 := of_decide_eq_true ((Bool.and_eq_true _ _).mp h2).2
      simpa [lowerL] using h3
    · rw [if_neg h2]
      by_cases h3 : (dropTrailingDashes (dropLeadingDashes
          (collapseInvalid (lowerL (trimL l))))).take 64 = []
      · rw [if_pos h3]; exact hd
      · rw [if_neg h3]
        rw [List.length_take]
        omega

theorem normalizeIdL_head_not_dash {dflt : List Char}
    (hd : dflt.head? ≠ some '-') (l : List Char) :
    (normalizeIdL dflt l).head? ≠ some '-' := by
  unfold normalizeIdL
  by_cases h1 : trimL l = []
  · rw [if_pos h1]; exact hd
  · rw [if_neg h1]
    by_cases h2 : (validIdMatch (trimL l) && decide ((trimL l).length ≤ 64)) = true
    · rw [if_pos h2]
      have hv := ((Bool.and_eq_true _ _).mp h2).1
      cases htl : trimL l with
      | nil => exact absurd htl h1
      | cons c rest =>
        rw [htl] at hv
        have hc : isAlphaNumCI c = true :=
          ((Bool.and_eq_true _ _).mp (by simpa [validIdMatch] using hv)).1
        intro he
        have hlc : pyLowerChar c = '-' := by simpa [lowerL] using he
        exact pyLowerChar_alphaNum_ne_dash hc hlc
    · rw [if_neg h2]
      by_cases h3 : (dropTrailingDashes (dropLeadingDashes
          (collapseInvalid (lowerL (trimL l))))).take 64 = []
      · rw [if_pos h3]; exact hd
      · rw [if_neg h3]
        intro he
        have h4 : (dropTrailingDashes (dropLeadingDashes
            (collapseInvalid (lowerL (trimL l))))).head? = some '-' :=
          isPrefix_head? (List.take_prefix _ _) he
        have h5 : (dropLeadingDashes
            (collapseInvalid (lowerL (trimL l)))).head? = some '-' :=
          isPrefix_head? (dropTrailingDashes_isPrefix _) h4
        have h6 := head?_dropWhile_false h5
        simp at h6

theorem normalize_agent_id_head_not_dash (x : Option String) :
    (normalize_agent_id x).data.head? ≠ some '-' :=
  normalizeIdL_head_not_dash (by decide) ((x.getD "").data)

theorem normalize_agent_id_length_le (x : Option String) :
    (normalize_agent_id x).data.length ≤ 64 :=
  normalizeIdL_length_le (by decide) ((x.getD "").data)

theorem normalizeIdL_fix {dflt l : List Char}
    (hchars : ∀ c ∈ l, isLowerIdChar c = true)
    (hne : l ≠ [])
    (hhead : l.head? ≠ some '-')
    (hlast : l.getLast? ≠ some '-')
    (hlen : l.length ≤ 64) :
    normalizeIdL dflt l = l := by
  have htr : trimL l = l :=
    trimL_eq_self_of_all (fun c hc => not_isPyWs_of_lowerId (hchars c hc))
  have hlow : lowerL l = l := lowerL_eq_self_of_lowerId hchars
  unfold normalizeIdL
  rw [htr]
  rw [if_neg hne]
  by_cases h2 : (validIdMatch l && decide (l.length ≤ 64)) = true
  · rw [if_pos h2, hlow]
  · rw [if_neg h2, hlow]
    simp only []
    rw [show collapseInvalid l = collapseAux false l from rfl,
      collapseAux_eq_self hchars false,
      dropLeadingDashes_eq_self hhead,
      dropTrailingDashes_eq_self hlast,
      List.take_of_length_le hlen,
      if_neg hne]

/-! ## C6 — idempotence of `normalize_agent_id` -/

/-- C6 counterexample: the 65-character id `aaa…a@b` (63 `a`s) normalizes to
63 `a`s followed by `-` — the `@` collapses to a dash, dash-trimming runs
before the 64-character truncation, and the truncation then re-exposes a
trailing dash — so a second normalization strips that dash and returns a
different (63-character) id. -/
theorem c6_normalize_not_idempotent :
    normalize_agent_id (some (normalize_agent_id (some c6Str))) ≠
      normalize_agent_id (some c6Str) := by decide

/-- C6 (amended): `normalize_agent_id` is idempotent on every input whose
normalization does not end in `-` (the only escape: 64-character truncation
happens after dash-trimming and may re-expose a trailing dash). Every
normalized id is non-empty, at most 64 characters, made of `[a-z0-9_-]`,
and starts with a non-dash, so under that one extra condition it is a fixed
point of the normalizer. -/
theorem c6_normalize_idempotent_unless_trailing_dash (s : Option String)
    (h : (normalize_agent_id s).data.getLast? ≠ some '-') :
    normalize_agent_id (some (normalize_agent_id s)) = normalize_agent_id s := by
  show String.mk (normalizeIdL DEFAULT_AGENT_ID.data (normalize_agent_id s).data) =
    normalize_agent_id s
  rw [normalizeIdL_fix (normalize_agent_id_chars s) (normalize_agent_id_ne_nil s)
    (normalize_agent_id_head_not_dash s) h (normalize_agent_id_length_le s)]

/-- C6 witness: `Hello World!` normalizes to `hello-world`, which has no
trailing dash, and re-normalizing indeed leaves it unchanged. -/
theorem c6_witness :
    normalize_agent_id (some (normalize_agent_id (some "Hello World!"))) =
      normalize_agent_id (some "Hello World!") :=
  c6_normalize_idempotent_unless_trailing_dash (some "Hello World!") (by decide)

/-! ## C3 — dangling agent ids and the default fallback -/

/-- C3 counterexample: in the claim's own scenario — one binding
`{agentId: "support", match: {channel: "telegram", accountId: "*"}}`, input
`(channel="telegram", accountId="bot1")`, and no configured agent list —
the resolver keeps `support` (an id not present in any agent list) and
reports the matching tier, not `default`. -/
theorem c3_scenario_keeps_dangling_id :
    resolve_agent_route c3Input =
      Except.ok ⟨"support", "telegram", "bot1", "agent:support:main",
        "agent:support:main", "binding.channel"⟩ ∧
    ("support" : String) ≠ DEFAULT_AGENT_ID ∧
    ("binding.channel" : String) ≠ "default" :=
  ⟨by rfl, by decide, by decide⟩

/-- C3 (amended): a requested agent id absent from the configured agent
list is replaced by the default agent id only when that list is non-empty;
with an empty (or missing) agent list `_pick_first_existing_agent_id`
trusts the requested id and returns its sanitized form. The reported
`matched_by` always names the matching tier; it is not rewritten to
`default` when the fallback fires. -/
theorem c3_fallback_needs_nonempty_agent_list (cfg : OpenClawConfig) (aid : String)
    (hne : pyStrip aid ≠ "")
    (hmiss : ∀ a ∈ listAgents cfg,
      normalize_agent_id (some (pyStrip a.id)) ≠ normalize_agent_id (some (pyStrip aid))) :
    _pick_first_existing_agent_id cfg aid =
      if listAgents cfg = [] then sanitize_agent_id (some (pyStrip aid))
      else sanitize_agent_id (some (resolve_default_agent_id cfg)) := by
  unfold _pick_first_existing_agent_id
  rw [if_neg hne]
  cases hL : listAgents cfg with
  | nil => simp
  | cons a0 rest =>
    have hfind : (a0 :: rest).find?
        (fun a => normalize_agent_id (some (pyStrip a.id)) =
          normalize_agent_id (some (pyStrip aid))) = none := by
      rw [List.find?_eq_none]
      intro a ha
      simpa using hmiss a (by rw [hL]; exact ha)
    simp only []
    rw [hfind]
    rw [if_neg (show ¬a0 :: rest = ([] : List AgentEntry) from by simp)]

/-- C3 witness: the scenario configuration has an empty agent list, the
requested id `support` strips to itself non-empty and matches no configured
agent, and the pick indeed keeps `support`. -/
theorem c3_witness :
    _pick_first_existing_agent_id c3Cfg "support" =
      if listAgents c3Cfg = [] then sanitize_agent_id (some (pyStrip "support"))
      else sanitize_agent_id (some (resolve_default_agent_id c3Cfg)) :=
  c3_fallback_needs_nonempty_agent_list c3Cfg "support" (by decide) (by decide)

/-! ## Store-lookup lemmas for `load_session_store` -/

theorem lookupKey_append (k : String) (xs ys : List (String × SessionEntry)) :
    lookupKey k (xs ++ ys) = (lookupKey k xs).or (lookupKey k ys) := by
  induction xs with
  | nil => simp [lookupKey]
  | cons kv rest ih =>
    by_cases h : kv.1 = k
    · simp [lookupKey, h]
    · simp [lookupKey, h, ih]

theorem lookupKey_eq_none_of_not_any {k : String}
    {store : List (String × SessionEntry)}
    (h : store.any (fun kv => kv.1 = k) = false) : lookupKey k store = none := by
  induction store with
  | nil => rfl
  | cons kv rest ih =>
    simp [List.any_cons] at h
    simp [lookupKey, h.1, ih (by simpa using h.2)]

theorem lookupKey_map_upsert (k : String) (e : SessionEntry) :
    ∀ (store : List (String × SessionEntry)),
      store.any (fun kv => kv.1 = k) = true →
      lookupKey k (store.map (fun kv => if kv.1 = k then (k, e) else kv)) = some e := by
  intro store
  induction store with
  | nil => intro h; simp at h
  | cons kv rest ih =>
    intro h
    by_cases hk : kv.1 = k
    · simp [lookupKey, hk]
    · have h2 : rest.any (fun kv => kv.1 = k) = true := by
        simp [List.any_cons, hk] at h
        simpa using h
      simp [lookupKey, hk, ih h2]

theorem lookupKey_upsert_self (store : List (String × SessionEntry)) (k : String)
    (e : SessionEntry) : lookupKey k (upsert store k e) = some e := by
  unfold upsert
  by_cases h : store.any (fun kv => kv.1 = k) = true
  · rw [if_pos h]
    exact lookupKey_map_upsert k e store h
  · rw [if_neg h, lookupKey_append,
      lookupKey_eq_none_of_not_any (Bool.eq_false_iff.mpr h)]
    simp [lookupKey]

theorem lookupKey_map_ne {k k0 : String} (hne : k ≠ k0) (e : SessionEntry) :
    ∀ store : List (String × SessionEntry),
      lookupKey k (store.map (fun kv => if kv.1 = k0 then (k0, e) else kv)) =
        lookupKey k store := by
  intro store
  induction store with
  | nil => rfl
  | cons kv rest ih =>
    by_cases hk : kv.1 = k0
    · simp [lookupKey, hk, Ne.symm hne, ih]
    · simp [lookupKey, hk, ih]

theorem lookupKey_upsert_ne {k k0 : String} (hne : k ≠ k0)
    (store : List (String × SessionEntry)) (e : SessionEntry) :
    lookupKey k (upsert store k0 e) = lookupKey k store := by
  unfold upsert
  by_cases h : store.any (fun kv => kv.1 = k0) = true
  · rw [if_pos h]
    exact lookupKey_map_ne hne e store
  · rw [if_neg h, lookupKey_append]
    have hone : lookupKey k [(k0, e)] = none := by simp [lookupKey, Ne.symm hne]
    rw [hone, Option.or_none]

theorem jLookup_eq_none_of_forall {k : String} {fields : List (String × Json)}
    (h : ∀ kv ∈ fields, kv.1 ≠ k) : jLookup k fields = none := by
  induction fields with
  | nil => rfl
  | cons kv rest ih =>
    simp [jLookup, h kv (List.mem_cons_self _ _),
      ih (fun x hx => h x (List.mem_cons_of_mem _ hx))]

theorem load_fold_lookup (k : String) :
    ∀ (fields : List (String × Json)) (store : List (String × SessionEntry)),
      (fields.map Prod.fst).Nodup →
      lookupKey k (fields.foldl
        (fun store kv =>
          match parseSessionEntry kv.2 with
          | some e => upsert store kv.1 e
          | none => store) store) =
      match jLookup k fields with
      | some v =>
        match parseSessionEntry v with
        | some e => some e
        | none => lookupKey k store
      | none => lookupKey k store := by
  intro fields
  induction fields with
  | nil => intro store _; rfl
  | cons kv rest ih =>
    intro store hnd
    rw [List.map_cons, List.nodup_cons] at hnd
    obtain ⟨hk0, hnd2⟩ := hnd
    rw [List.foldl_cons, ih _ hnd2]
    by_cases hkk : kv.1 = k
    · have hjr : jLookup k rest = none := by
        apply jLookup_eq_none_of_forall
        intro x hx he
        have hmem : x.1 ∈ rest.map Prod.fst := List.mem_map_of_mem Prod.fst hx
        rw [he, ← hkk] at hmem
        exact hk0 hmem
      rw [hjr, show jLookup k (kv :: rest) = some kv.2 from by simp [jLookup, hkk]]
      simp only []
      cases hp : parseSessionEntry kv.2 with
      | some e =>
        simp only []
        rw [hkk]
        exact lookupKey_upsert_self store k e
      | none => rfl
    · rw [show jLookup k (kv :: rest) = jLookup k rest from by simp [jLookup, hkk]]
      cases hj : jLookup k rest with
      | none =>
        simp only []
        cases hp : parseSessionEntry kv.2 with
        | some e =>
          simp only []
          exact lookupKey_upsert_ne (fun h => hkk h.symm) store e
        | none => rfl
      | some v =>
        simp only []
        cases hp2 : parseSessionEntry v with
        | some e2 => rfl
        | none =>
          simp only []
          cases hp : parseSessionEntry kv.2 with
          | some e =>
            simp only []
            exact lookupKey_upsert_ne (fun h => hkk h.symm) store e
          | none => rfl

/-! ## C7 — totality and record-skipping of `load_session_store` -/

/-- C7: `load_session_store` is total by construction (it returns a map for
every disk state); a missing file, unparsable content, or parsable non-object
content yields the empty map; and over an object with distinct keys each
record parses independently: a key maps to exactly the parsed entry of its
record, so a record that fails validation is skipped while every other
record is still returned. -/
theorem c7_load_total_and_skips (fields : List (String × Json))
    (hnd : (fields.map Prod.fst).Nodup) :
    load_session_store DiskFile.missing = [] ∧
    load_session_store DiskFile.garbage = [] ∧
    (∀ j, (∀ f, j ≠ Json.obj f) → load_session_store (DiskFile.content j) = []) ∧
    ∀ k, lookupKey k (load_session_store (DiskFile.content (Json.obj fields))) =
      obind (jLookup k fields) parseSessionEntry := by
  refine ⟨rfl, rfl, ?_, ?_⟩
  · intro j hj
    cases j <;> first | rfl | exact absurd rfl (hj _)
  · intro k
    have h := load_fold_lookup k fields [] hnd
    rw [show load_session_store (DiskFile.content (Json.obj fields)) =
      fields.foldl (fun store kv => match parseSessionEntry kv.2 with
        | some e => upsert store kv.1 e | none => store) [] from rfl, h]
    cases hj : jLookup k fields with
    | none => rfl
    | some v =>
      simp only []
      cases hp : parseSessionEntry v with
      | some e =>
        rw [show obind (some v) parseSessionEntry = parseSessionEntry v from rfl, hp]
      | none =>
        rw [show obind (some v) parseSessionEntry = parseSessionEntry v from rfl, hp]
        rfl

/-- C7 witness: in the two-record file of the repo's
`test_load_skips_invalid_entries`, the record under `valid` is returned as
a parsed entry while the record under `invalid` (missing its required
fields) is skipped. -/
theorem c7_witness :
    lookupKey "valid" (load_session_store c7File) = some (baseEntry "123" 1000) ∧
    lookupKey "invalid" (load_session_store c7File) = none := by
  have h := c7_load_total_and_skips
    [("valid", Json.obj [("session_id", Json.str "123"), ("updated_at", Json.num 1000)]),
     ("invalid", Json.obj [("label", Json.str "Bad Entry")])] (by decide)
  constructor
  · have h1 := h.2.2.2 "valid"
    rw [c7File, h1]
    rfl
  · have h2 := h.2.2.2 "invalid"
    rw [c7File, h2]
    rfl

/-! ## C4 — merge semantics of session records -/

/-- C4 counterexample: a patch that supplies `session_id` with the empty
string is present, yet the merge keeps the existing record's id — Python
evaluates `patch.get("session_id") or …`, so a falsy (empty) patch id
falls through to the existing id, contradicting the claim's
`patch's session_id if present`. -/
theorem c4_present_empty_session_id_ignored :
    emptySidPatch.session_id = some "" ∧
    (merge_session_entry (some (baseEntry "abc" 5)) emptySidPatch 7
      "fresh").session_id = "abc" ∧
    ("abc" : String) ≠ "" :=
  ⟨rfl, rfl, by decide⟩

/-- C4 (amended): per-field merge semantics of `merge_session_entry`.
`session_id` is the patch's id when present **and non-empty** (a present
empty id falls back like an absent one), else the existing record's id,
else the fresh uuid; `updated_at` is the maximum of the existing value (`0`
without a record), the patch value (`0` when absent) and the wall clock, so
it never moves below either the existing timestamp or the clock; and every
other field is patch-over-existing (model defaults standing in for the
existing values when no record exists). -/
theorem c4_merge_semantics (e : SessionEntry) (p : SessionPatch) (nowMs : Int)
    (fid : String) :
    (∀ s, p.session_id = some s → s ≠ "" →
      (merge_session_entry (some e) p nowMs fid).session_id = s ∧
      (merge_session_entry none p nowMs fid).session_id = s) ∧
    (p.session_id = none ∨ p.session_id = some "" →
      (merge_session_entry (some e) p nowMs fid).session_id = e.session_id ∧
      (merge_session_entry none p nowMs fid).session_id = fid) ∧
    (merge_session_entry (some e) p nowMs fid).updated_at =
      max (max e.updated_at (pField p.updated_at 0)) nowMs ∧
    (merge_session_entry none p nowMs fid).updated_at =
      max (max 0 (pField p.updated_at 0)) nowMs ∧
    e.updated_at ≤ (merge_session_entry (some e) p nowMs fid).updated_at ∧
    nowMs ≤ (merge_session_entry (some e) p nowMs fid).updated_at ∧
    (merge_session_entry (some e) p nowMs fid).session_file = pField p.session_file e.session_file ∧
    (merge_session_entry (some e) p nowMs fid).spawned_by = pField p.spawned_by e.spawned_by ∧
    (merge_session_entry (some e) p nowMs fid).label = pField p.label e.label ∧
    (merge_session_entry (some e) p nowMs fid).display_name = pField p.display_name e.display_name ∧
    (merge_session_entry (some e) p nowMs fid).chat_type = pField p.chat_type e.chat_type ∧
    (merge_session_entry (some e) p nowMs fid).channel = pField p.channel e.channel ∧
    (merge_session_entry (some e) p nowMs fid).group_id = pField p.group_id e.group_id ∧
    (merge_session_entry (some e) p nowMs fid).subject = pField p.subject e.subject ∧
    (merge_session_entry (some e) p nowMs fid).group_channel = pField p.group_channel e.group_channel ∧
    (merge_session_entry (some e) p nowMs fid).space = pField p.space e.space ∧
    (merge_session_entry (some e) p nowMs fid).origin = pField p.origin e.origin ∧
    (merge_session_entry (some e) p nowMs fid).last_channel = pField p.last_channel e.last_channel ∧
    (merge_session_entry (some e) p nowMs fid).last_to = pField p.last_to e.last_to ∧
    (merge_session_entry (some e) p nowMs fid).last_account_id = pField p.last_account_id e.last_account_id ∧
    (merge_session_entry (some e) p nowMs fid).last_thread_id = pField p.last_thread_id e.last_thread_id ∧
    (merge_session_entry (some e) p nowMs fid).aborted_last_run = pField p.aborted_last_run e.aborted_last_run ∧
    (merge_session_entry (some e) p nowMs fid).system_sent = pField p.system_sent e.system_sent ∧
    (merge_session_entry (some e) p nowMs fid).model_provider = pField p.model_provider e.model_provider ∧
    (merge_session_entry (some e) p nowMs fid).model = pField p.model e.model ∧
    (merge_session_entry (some e) p nowMs fid).context_tokens = pField p.context_tokens e.context_tokens ∧
    (merge_session_entry (some e) p nowMs fid).input_tokens = pField p.input_tokens e.input_tokens ∧
    (merge_session_entry (some e) p nowMs fid).output_tokens = pField p.output_tokens e.output_tokens ∧
    (merge_session_entry (some e) p nowMs fid).total_tokens = pField p.total_tokens e.total_tokens ∧
    (merge_session_entry (some e) p nowMs fid).compaction_count = pField p.compaction_count e.compaction_count ∧
    (merge_session_entry (some e) p nowMs fid).provider_override = pField p.provider_override e.provider_override ∧
    (merge_session_entry (some e) p nowMs fid).model_override = pField p.model_override e.model_override ∧
    (merge_session_entry (some e) p nowMs fid).auth_profile_override = pField p.auth_profile_override e.auth_profile_override ∧
    (merge_session_entry (some e) p nowMs fid).send_policy = pField p.send_policy e.send_policy ∧
    (merge_session_entry (some e) p nowMs fid).group_activation = pField p.group_activation e.group_activation ∧
    (merge_session_entry (some e) p nowMs fid).extra = pField p.extra e.extra ∧
    (merge_session_entry none p nowMs fid).session_file = pField p.session_file none ∧
    (merge_session_entry none p nowMs fid).spawned_by = pField p.spawned_by none ∧
    (merge_session_entry none p nowMs fid).label = pField p.label none ∧
    (merge_session_entry none p nowMs fid).display_name = pField p.display_name none ∧
    (merge_session_entry none p nowMs fid).chat_type = pField p.chat_type none ∧
    (merge_session_entry none p nowMs fid).channel = pField p.channel none ∧
    (merge_session_entry none p nowMs fid).group_id = pField p.group_id none ∧
    (merge_session_entry none p nowMs fid).subject = pField p.subject none ∧
    (merge_session_entry none p nowMs fid).group_channel = pField p.group_channel none ∧
    (merge_session_entry none p nowMs fid).space = pField p.space none ∧
    (merge_session_entry none p nowMs fid).origin = pField p.origin none ∧
    (merge_session_entry none p nowMs fid).last_channel = pField p.last_channel none ∧
    (merge_session_entry none p nowMs fid).last_to = pField p.last_to none ∧
    (merge_session_entry none p nowMs fid).last_account_id = pField p.last_account_id none ∧
    (merge_session_entry none p nowMs fid).last_thread_id = pField p.last_thread_id none ∧
    (merge_session_entry none p nowMs fid).aborted_last_run = pField p.aborted_last_run false ∧
    (merge_session_entry none p nowMs fid).system_sent = pField p.system_sent false ∧
    (merge_session_entry none p nowMs fid).model_provider = pField p.model_provider none ∧
    (merge_session_entry none p nowMs fid).model = pField p.model none ∧
    (merge_session_entry none p nowMs fid).context_tokens = pField p.context_tokens none ∧
    (merge_session_entry none p nowMs fid).input_tokens = pField p.input_tokens none ∧
    (merge_session_entry none p nowMs fid).output_tokens = pField p.output_tokens none ∧
    (merge_session_entry none p nowMs fid).total_tokens = pField p.total_tokens none ∧
    (merge_session_entry none p nowMs fid).compaction_count = pField p.compaction_count 0 ∧
    (merge_session_entry none p nowMs fid).provider_override = pField p.provider_override none ∧
    (merge_session_entry none p nowMs fid).model_override = pField p.model_override none ∧
    (merge_session_entry none p nowMs fid).auth_profile_override = pField p.auth_profile_override none ∧
    (merge_session_entry none p nowMs fid).send_policy = pField p.send_policy none ∧
    (merge_session_entry none p nowMs fid).group_activation = pField p.group_activation none ∧
    (merge_session_entry none p nowMs fid).extra = pField p.extra none := by
  have hA1 : ∀ s, p.session_id = some s → s ≠ "" →
      (merge_session_entry (some e) p nowMs fid).session_id = s ∧
      (merge_session_entry none p nowMs fid).session_id = s := by
    intro s hs hne
    constructor <;> simp only [merge_session_entry, hs, if_neg hne]
  have hA2 : p.session_id = none ∨ p.session_id = some "" →
      (merge_session_entry (some e) p nowMs fid).session_id = e.session_id ∧
      (merge_session_entry none p nowMs fid).session_id = fid := by
    rintro (hs | hs) <;> constructor <;> simp [merge_session_entry, hs]
  have hB3 : e.updated_at ≤ (merge_session_entry (some e) p nowMs fid).updated_at :=
    le_trans (le_max_left e.updated_at (pField p.updated_at 0))
      (le_max_left _ nowMs)
  have hB4 : nowMs ≤ (merge_session_entry (some e) p nowMs fid).updated_at :=
    le_max_right _ nowMs
  exact ⟨hA1, hA2, rfl, rfl, hB3, hB4, rfl, rfl, rfl, rfl, rfl, rfl, rfl, rfl,
    rfl, rfl, rfl, rfl, rfl, rfl, rfl, rfl, rfl, rfl, rfl, rfl, rfl, rfl, rfl,
    rfl, rfl, rfl, rfl, rfl, rfl, rfl, rfl, rfl, rfl, rfl, rfl, rfl, rfl, rfl,
    rfl, rfl, rfl, rfl, rfl, rfl, rfl, rfl, rfl, rfl, rfl, rfl, rfl, rfl, rfl,
    rfl, rfl, rfl, rfl, rfl, rfl, rfl⟩

/-- C4 witness: with existing record `abc`, a patch carrying id `xyz`
overrides it, the empty patch keeps `abc`, and for a fresh key the empty
patch yields the generated uuid. -/
theorem c4_witness :
    (merge_session_entry (some (baseEntry "abc" 5)) (sidPatch "xyz") 7
      "fresh").session_id = "xyz" ∧
    (merge_session_entry (some (baseEntry "abc" 5)) emptyPatch 7
      "fresh").session_id = "abc" ∧
    (merge_session_entry none emptyPatch 7 "fresh").session_id = "fresh" :=
  ⟨((c4_merge_semantics (baseEntry "abc" 5) (sidPatch "xyz") 7 "fresh").1
      "xyz" rfl (by decide)).1,
   ((c4_merge_semantics (baseEntry "abc" 5) emptyPatch 7 "fresh").2.1
      (Or.inl rfl)).1,
   ((c4_merge_semantics (baseEntry "abc" 5) emptyPatch 7 "fresh").2.1
      (Or.inl rfl)).2⟩

/-! ## C5 — well-formedness characterization of session keys -/

/-- C5 counterexample: the key `:agent:a:b` does not carry the `agent:`
prefix, yet `parse_agent_session_key` succeeds on it (empty segments are
discarded before the first segment is compared against `agent`), so parse
success is not equivalent to "has the `agent:` prefix plus two more
non-empty segments" as claimed. -/
theorem c5_parse_succeeds_without_agent_colon :
    parse_agent_session_key (some ":agent:a:b") =
      some ⟨"a", "b"⟩ ∧
    matchesAt "agent:".data ":agent:a:b".data = false := by
  constructor
  · rfl
  · rfl

/-- C5 (amended): `parse_agent_session_key` succeeds on a key iff, after
stripping whitespace, the non-empty colon segments of the key number at
least three, the first is the literal `agent`, and the second is non-blank
(non-empty after stripping); and a key on which parse fails is only ever
classified as `missing`, `malformed_agent` or `legacy_or_alias` by
`classify_session_key_shape`, never repaired. -/
theorem c5_parse_iff_segments :
    (∀ key : String,
      (parse_agent_session_key (some key)).isSome = true ↔
        ∃ p1 p2 ps,
          nonemptySegs (trimL key.data) = "agent".data :: p1 :: p2 :: ps ∧
            trimL p1 ≠ []) ∧
    (∀ key : Option String, parse_agent_session_key key = none →
      classify_session_key_shape key = "missing" ∨
        classify_session_key_shape key = "malformed_agent" ∨
        classify_session_key_shape key = "legacy_or_alias") :=
  ⟨parse_isSome_iff, fun _ h => classify_of_parse_none h⟩

/-- C5 witness: the characterization evaluated at `agent:main:sub:task` and
the classification at the malformed `agent:x`. -/
theorem c5_witness :
    (parse_agent_session_key (some "agent:main:sub:task")).isSome = true ∧
    (classify_session_key_shape (some "agent:x") = "missing" ∨
      classify_session_key_shape (some "agent:x") = "malformed_agent" ∨
      classify_session_key_shape (some "agent:x") = "legacy_or_alias") :=
  ⟨(c5_parse_iff_segments.1 "agent:main:sub:task").mpr
      ⟨"main".data, "sub".data, ["task".data], by decide, by decide⟩,
    c5_parse_iff_segments.2 (some "agent:x") (by decide)⟩

/-! ## Built-key parsing lemmas -/

theorem nes_of_id {aid : List Char} (hne : aid ≠ [])
    (hch : ∀ c ∈ aid, isLowerIdChar c = true) : nonemptySegs aid = [aid] :=
  nes_no_colon hne (fun c hc => ne_colon_of_lowerId (hch c hc))

theorem trimL_agent_key {aid tail : List Char} (htail_ne : tail ≠ [])
    (htail_last : ∀ c, tail.getLast? = some c → isPyWs c = false) :
    trimL ("agent".data ++ ':' :: (aid ++ ':' :: tail)) =
      "agent".data ++ ':' :: (aid ++ ':' :: tail) := by
  refine trimL_eq_self (fun c hc => ?_) (fun c hc => ?_)
  · have hca : 'a' = c := by simpa using hc
    subst hca; decide
  · rw [show "agent".data ++ ':' :: (aid ++ ':' :: tail) =
      ("agent".data ++ ':' :: (aid ++ [':'])) ++ tail by simp,
      List.getLast?_append] at hc
    cases hl : tail.getLast? with
    | none => exact absurd hl (by simpa using htail_ne)
    | some d =>
      rw [hl] at hc
      have hcd : d = c := by simpa [Option.or] using hc
      subst hcd
      exact htail_last d hl

theorem nes_agent_key {aid tail : List Char} (haid_ne : aid ≠ [])
    (haid_valid : ∀ c ∈ aid, isLowerIdChar c = true) :
    nonemptySegs ("agent".data ++ ':' :: (aid ++ ':' :: tail)) =
      "agent".data :: aid :: nonemptySegs tail := by
  rw [nes_append_colon, nes_append_colon, nes_of_id haid_ne haid_valid,
    show nonemptySegs "agent".data = ["agent".data] from by decide]
  rfl

theorem pyLower_data_getLast_not_ws {y : String} {c : Char}
    (h : (pyLower (pyStrip y)).data.getLast? = some c) : isPyWs c = false := by
  have hd : (pyLower (pyStrip y)).data = lowerL (trimL y.data) := rfl
  rw [hd, lowerL, List.getLast?_map] at h
  cases hg : (trimL y.data).getLast? with
  | none => rw [hg] at h; simp at h
  | some d =>
    rw [hg] at h
    have hcd : pyLowerChar d = c := by simpa using h
    subst hcd
    exact not_isPyWs_pyLowerChar (trimL_getLast_not_ws hg)

theorem nes_ne_nil_of_exists {l : List Char} (h : ∃ c ∈ l, c ≠ ':') :
    nonemptySegs l ≠ [] := by
  obtain ⟨c, hc, hne⟩ := h
  exact nes_ne_nil_of_mem hc hne

/-! ## Builder well-formedness lemmas -/

theorem normalize_main_key_ne_nil (mk : Option String) :
    (normalize_main_key mk).data ≠ [] := by
  unfold normalize_main_key
  by_cases h : pyStrip (mk.getD "") = ""
  · rw [if_pos h]; decide
  · rw [if_neg h]
    have ht : trimL (mk.getD "").data ≠ [] := by
      intro heq
      exact h (congrArg String.mk heq)
    show lowerL (trimL (mk.getD "").data) ≠ []
    simpa [lowerL] using ht

theorem normalize_main_key_getLast_not_ws {mk : Option String} {c : Char}
    (h : (normalize_main_key mk).data.getLast? = some c) : isPyWs c = false := by
  unfold normalize_main_key at h
  by_cases hb : pyStrip (mk.getD "") = ""
  · rw [if_pos hb] at h
    have hn : DEFAULT_MAIN_KEY.data.getLast? = some 'n' := by decide
    rw [hn] at h
    have : 'n' = c := Option.some.inj h
    subst this; decide
  · rw [if_neg hb] at h
    exact pyLower_data_getLast_not_ws (y := mk.getD "") h

theorem channelLowerOr_props (ch : String) :
    (channelLowerOr ch).data ≠ [] ∧
      (∀ c, (channelLowerOr ch).data.getLast? = some c → isPyWs c = false) := by
  unfold channelLowerOr
  by_cases h : pyLower (pyStrip ch) = ""
  · rw [if_pos h]
    refine ⟨by decide, fun c hc => ?_⟩
    have hn : ("unknown" : String).data.getLast? = some 'n' := by decide
    rw [hn] at hc
    have : 'n' = c := Option.some.inj hc
    subst this; decide
  · rw [if_neg h]
    refine ⟨fun heq => h (congrArg String.mk heq), fun c hc =>
      pyLower_data_getLast_not_ws (y := ch) hc⟩

theorem pyLower_pyStrip_ne_nil {y : String} (hy : pyStrip y ≠ "") :
    (pyLower (pyStrip y)).data ≠ [] := by
  intro heq
  have : trimL y.data = [] := by simpa [pyLower, pyStrip, lowerL] using heq
  exact hy (congrArg String.mk this)

theorem pyStrip_unknown : pyStrip "unknown" = "unknown" := by decide

theorem resolveLinkedPeerId_shape {links : Option (List (String × List String))}
    {ch pid : String} {c : String}
    (h : resolveLinkedPeerId links ch pid = some c) : ∃ y, c = pyStrip y := by
  cases links with
  | none => simp [resolveLinkedPeerId] at h
  | some ls =>
    simp only [resolveLinkedPeerId] at h
    repeat' split at h
    any_goals exact Option.noConfusion h
    all_goals
      obtain ⟨entry, _, hentry⟩ := List.exists_of_findSome?_eq_some h
      repeat' split at hentry
      any_goals exact Option.noConfusion hentry
      all_goals
        obtain ⟨a, _, ha⟩ := List.exists_of_findSome?_eq_some hentry
        repeat' split at ha
        any_goals exact Option.noConfusion ha
        all_goals exact ⟨entry.1, (Option.some.inj ha).symm⟩

theorem data_ne_nil_of_ne_empty {s : String} (h : s ≠ "") : s.data ≠ [] := by
  intro he
  apply h
  cases s with
  | mk d =>
    simp at he
    rw [he]

theorem resolvedDirectPeerId_shape (ch : String) (pid : Option String)
    (links : Option (List (String × List String))) (scope : DmScope) :
    ∃ y, resolvedDirectPeerId ch pid links scope = pyStrip y := by
  simp only [resolvedDirectPeerId]
  split
  · split
    · exact ⟨pid.getD "", rfl⟩
    · rename_i lp heq hne
      split at heq
      · exact resolveLinkedPeerId_shape heq
      · exact Option.noConfusion heq
  · exact ⟨pid.getD "", rfl⟩

theorem direct_pidL_props {ch : String} {pid : Option String}
    {links : Option (List (String × List String))} {scope : DmScope}
    (h : pyLower (resolvedDirectPeerId ch pid links scope) ≠ "") :
    (pyLower (resolvedDirectPeerId ch pid links scope)).data ≠ [] ∧
      ∀ c, (pyLower (resolvedDirectPeerId ch pid links scope)).data.getLast? = some c →
        isPyWs c = false := by
  obtain ⟨y, hy⟩ := resolvedDirectPeerId_shape ch pid links scope
  rw [hy]
  exact ⟨data_ne_nil_of_ne_empty (hy ▸ h), fun c hc => pyLower_data_getLast_not_ws hc⟩

theorem unknown_pid_props (pid : Option String) :
    (pyLower (let t := pyStrip (pid.getD ""); if t = "" then "unknown" else t)).data ≠ [] ∧
      ∀ c, (pyLower (let t := pyStrip (pid.getD "");
          if t = "" then "unknown" else t)).data.getLast? = some c → isPyWs c = false := by
  by_cases h : pyStrip (pid.getD "") = ""
  · rw [show (let t := pyStrip (pid.getD ""); if t = "" then "unknown" else t) =
      ("unknown" : String) from by simp [h]]
    refine ⟨by decide, fun c hc => ?_⟩
    have hn : (pyLower "unknown").data.getLast? = some 'n' := by decide
    rw [hn] at hc
    have hcn : 'n' = c := Option.some.inj hc
    subst hcn
    decide
  · rw [show (let t := pyStrip (pid.getD ""); if t = "" then "unknown" else t) =
      pyStrip (pid.getD "") from by simp [h]]
    exact ⟨pyLower_pyStrip_ne_nil h, fun c hc => pyLower_data_getLast_not_ws hc⟩

theorem wellformed_of_key_eq {key : String} {aidStr : String} {tail : List Char}
    (hkey : key.data = "agent".data ++ ':' :: (aidStr.data ++ ':' :: tail))
    (haid1 : aidStr.data ≠ []) (haid2 : ∀ c ∈ aidStr.data, isLowerIdChar c = true)
    (ht1 : tail ≠ []) (ht2 : ∀ c, tail.getLast? = some c → isPyWs c = false)
    (ht3 : nonemptySegs tail ≠ []) :
    (parse_agent_session_key (some key)).isSome = true ∧
      classify_session_key_shape (some key) = "agent" := by
  have hp : (parse_agent_session_key (some key)).isSome = true := by
    have hbody : parse_agent_session_key (some key) = parseRawSegs (trimL key.data) := rfl
    rw [hbody, hkey, trimL_agent_key ht1 ht2]
    refine (parseRawSegs_isSome_iff _).mpr ?_
    cases htl : nonemptySegs tail with
    | nil => exact absurd htl ht3
    | cons p2 ps =>
      refine ⟨aidStr.data, p2, ps, ?_, ?_⟩
      · rw [nes_agent_key haid1 haid2, htl]
      · rw [trimL_eq_self_of_all (fun c hc => not_isPyWs_of_lowerId (haid2 c hc))]
        exact haid1
  exact ⟨hp, classify_of_parse_isSome hp⟩

theorem getLast_append_right {x y : List Char} (hy : y ≠ []) {c : Char}
    (h : (x ++ y).getLast? = some c) : y.getLast? = some c := by
  rw [List.getLast?_append] at h
  cases hl : y.getLast? with
  | none =>
    exfalso
    exact hy (by simpa using hl)
  | some d =>
    rw [hl] at h
    simpa [Option.or] using h

/-! ## Peer-key branch equations -/

theorem bp_group_eq (agent_id : String) (mk : Option String) (ch : String)
    (acct : Option String) (kind : String) (pid : Option String)
    (links : Option (List (String × List String))) (scope : DmScope)
    (hk1 : kind ≠ "") (hk2 : kind ≠ "direct") :
    build_agent_peer_session_key agent_id mk ch acct (some kind) pid links scope =
      "agent:" ++ normalize_agent_id (some agent_id) ++ ":" ++ channelLowerOr ch ++
        ":" ++ kind ++ ":" ++
        pyLower (let t := pyStrip (pid.getD ""); if t = "" then "unknown" else t) := by
  simp only [build_agent_peer_session_key]
  rw [if_neg hk1, if_neg hk2]

theorem bp_perPeer_eq (agent_id : String) (mk : Option String) (ch : String)
    (acct : Option String) (pid : Option String)
    (links : Option (List (String × List String)))
    (h : pyLower (resolvedDirectPeerId ch pid links DmScope.perPeer) ≠ "") :
    build_agent_peer_session_key agent_id mk ch acct (some "direct") pid links
        DmScope.perPeer =
      "agent:" ++ normalize_agent_id (some agent_id) ++ ":direct:" ++
        pyLower (resolvedDirectPeerId ch pid links DmScope.perPeer) := by
  simp only [build_agent_peer_session_key]
  rw [if_neg (show ¬("direct" : String) = "" by decide), if_pos rfl,
    if_neg (by simp), if_neg (by simp), if_pos (by simp [h])]

theorem bp_perChannelPeer_eq (agent_id : String) (mk : Option String) (ch : String)
    (acct : Option String) (pid : Option String)
    (links : Option (List (String × List String)))
    (h : pyLower (resolvedDirectPeerId ch pid links DmScope.perChannelPeer) ≠ "") :
    build_agent_peer_session_key agent_id mk ch acct (some "direct") pid links
        DmScope.perChannelPeer =
      "agent:" ++ normalize_agent_id (some agent_id) ++ ":" ++ channelLowerOr ch ++
        ":direct:" ++ pyLower (resolvedDirectPeerId ch pid links DmScope.perChannelPeer) := by
  simp only [build_agent_peer_session_key]
  rw [if_neg (show ¬("direct" : String) = "" by decide), if_pos rfl,
    if_neg (by simp), if_pos (by simp [h])]

theorem bp_perAccountChannelPeer_eq (agent_id : String) (mk : Option String)
    (ch : String) (acct : Option String) (pid : Option String)
    (links : Option (List (String × List String)))
    (h : pyLower (resolvedDirectPeerId ch pid links DmScope.perAccountChannelPeer) ≠ "") :
    build_agent_peer_session_key agent_id mk ch acct (some "direct") pid links
        DmScope.perAccountChannelPeer =
      "agent:" ++ normalize_agent_id (some agent_id) ++ ":" ++ channelLowerOr ch ++
        ":" ++ normalize_account_id acct ++ ":direct:" ++
        pyLower (resolvedDirectPeerId ch pid links DmScope.perAccountChannelPeer) := by
  simp only [build_agent_peer_session_key]
  rw [if_neg (show ¬("direct" : String) = "" by decide), if_pos rfl, if_pos (by simp [h])]

theorem bp_direct_fallback (agent_id : String) (mk : Option String) (ch : String)
    (acct : Option String) (pid : Option String)
    (links : Option (List (String × List String))) (scope : DmScope)
    (h : scope = DmScope.main ∨
      pyLower (resolvedDirectPeerId ch pid links scope) = "") :
    build_agent_peer_session_key agent_id mk ch acct (some "direct") pid links scope =
      build_agent_main_session_key agent_id mk := by
  simp only [build_agent_peer_session_key]
  rw [if_neg (show ¬("direct" : String) = "" by decide), if_pos rfl]
  rcases h with h | h
  · subst h
    rw [if_neg (by simp), if_neg (by simp), if_neg (by simp)]
  · rw [if_neg (by simp [h]), if_neg (by simp [h]), if_neg (by simp [h])]

theorem pyLower_ne_empty {s : String} (h : s ≠ "") : pyLower s ≠ "" := by
  intro he
  apply h
  have h1 : lowerL s.data = [] := congrArg String.data he
  have h2 : s.data = [] := by simpa [lowerL] using h1
  exact congrArg String.mk h2

/-! ## C8 — identity-link substitution in direct-peer keys -/

/-- C8: when the identity-link resolution maps the stripped peer id (via
its bare or `channel:peerId` scoped candidate) to a non-empty canonical
name, every non-main DM scope builds the direct-peer session key from the
lowercased canonical name instead of the peer id: the resolved peer id is
the canonical name, and the three scoped key shapes all embed
`pyLower c`. -/
theorem c8_linked_peer_substitution (aid : String) (mk : Option String)
    (ch : String) (acct : Option String) (pid : Option String)
    (links : Option (List (String × List String))) (scope : DmScope) (c : String)
    (hres : resolveLinkedPeerId links ch (pyStrip (pid.getD "")) = some c)
    (hc : c ≠ "") (hscope : scope ≠ DmScope.main) :
    resolvedDirectPeerId ch pid links scope = c ∧
    (scope = DmScope.perPeer →
      build_agent_peer_session_key aid mk ch acct (some "direct") pid links scope =
        "agent:" ++ normalize_agent_id (some aid) ++ ":direct:" ++ pyLower c) ∧
    (scope = DmScope.perChannelPeer →
      build_agent_peer_session_key aid mk ch acct (some "direct") pid links scope =
        "agent:" ++ normalize_agent_id (some aid) ++ ":" ++ channelLowerOr ch ++
          ":direct:" ++ pyLower c) ∧
    (scope = DmScope.perAccountChannelPeer →
      build_agent_peer_session_key aid mk ch acct (some "direct") pid links scope =
        "agent:" ++ normalize_agent_id (some aid) ++ ":" ++ channelLowerOr ch ++
          ":" ++ normalize_account_id acct ++ ":direct:" ++ pyLower c) := by
  have hrd : resolvedDirectPeerId ch pid links scope = c := by
    simp only [resolvedDirectPeerId]
    rw [if_pos hscope, hres]
    simp only []
    rw [if_neg hc]
  have hlow : pyLower (resolvedDirectPeerId ch pid links scope) ≠ "" := by
    rw [hrd]
    exact pyLower_ne_empty hc
  refine ⟨hrd, ?_, ?_, ?_⟩
  · intro hs
    subst hs
    rw [bp_perPeer_eq aid mk ch acct pid links hlow, hrd]
  · intro hs
    subst hs
    rw [bp_perChannelPeer_eq aid mk ch acct pid links hlow, hrd]
  · intro hs
    subst hs
    rw [bp_perAccountChannelPeer_eq aid mk ch acct pid links hlow, hrd]

/-- C8 witness: the claim's scenario — `dm_scope = per-peer`, identity link
`{"alice": ["telegram:42"]}`, direct peer `42`, channel `telegram`, agent
`main` — produces exactly `agent:main:direct:alice`. -/
theorem c8_witness :
    build_agent_peer_session_key "main" (some "main") "telegram" none
      (some "direct") (some "42") (some [("alice", ["telegram:42"])])
      DmScope.perPeer = "agent:main:direct:alice" := by
  have h := c8_linked_peer_substitution "main" (some "main") "telegram" none
    (some "42") (some [("alice", ["telegram:42"])]) DmScope.perPeer "alice"
    (by decide) (by decide) (by decide)
  rw [h.2.1 rfl]
  rfl

/-! ## Key data normalization -/

theorem buildMain_data (agent_id : String) (mk : Option String) :
    (build_agent_main_session_key agent_id mk).data =
      "agent".data ++ ':' :: ((normalize_agent_id (some agent_id)).data ++ ':' ::
        (normalize_main_key mk).data) := by
  unfold build_agent_main_session_key
  rw [show ("agent:" : String) = "agent" ++ ":" from rfl]
  simp [String.data_append]

theorem key_data_4 (a b c d : String) :
    ("agent:" ++ a ++ ":" ++ b ++ ":" ++ c ++ ":" ++ d).data =
      "agent".data ++ ':' :: (a.data ++ ':' :: (b.data ++ ':' ::
        (c.data ++ ':' :: d.data))) := by
  rw [show ("agent:" : String) = "agent" ++ ":" from rfl]
  simp [String.data_append]

theorem key_data_direct (a b : String) :
    ("agent:" ++ a ++ ":direct:" ++ b).data =
      "agent".data ++ ':' :: (a.data ++ ':' :: ("direct".data ++ ':' :: b.data)) := by
  rw [show ("agent:" : String) = "agent" ++ ":" from rfl,
    show (":direct:" : String) = ":" ++ "direct" ++ ":" from rfl]
  simp [String.data_append]

theorem key_data_3direct (a b c : String) :
    ("agent:" ++ a ++ ":" ++ b ++ ":direct:" ++ c).data =
      "agent".data ++ ':' :: (a.data ++ ':' :: (b.data ++ ':' ::
        ("direct".data ++ ':' :: c.data))) := by
  rw [show ("agent:" : String) = "agent" ++ ":" from rfl,
    show (":direct:" : String) = ":" ++ "direct" ++ ":" from rfl]
  simp [String.data_append]

theorem key_data_4direct (a b c d : String) :
    ("agent:" ++ a ++ ":" ++ b ++ ":" ++ c ++ ":direct:" ++ d).data =
      "agent".data ++ ':' :: (a.data ++ ':' :: (b.data ++ ':' ::
        (c.data ++ ':' :: ("direct".data ++ ':' :: d.data)))) := by
  rw [show ("agent:" : String) = "agent" ++ ":" from rfl,
    show (":direct:" : String) = ":" ++ "direct" ++ ":" from rfl]
  simp [String.data_append]

theorem buildMain_wellformed_iff (agent_id : String) (mk : Option String) :
    ((parse_agent_session_key
        (some (build_agent_main_session_key agent_id mk))).isSome = true ∧
      classify_session_key_shape
        (some (build_agent_main_session_key agent_id mk)) = "agent") ↔
      ∃ c ∈ (normalize_main_key mk).data, c ≠ ':' := by
  constructor
  · rintro ⟨h, -⟩
    by_contra hno
    push_neg at hno
    have hsegs : nonemptySegs (normalize_main_key mk).data = [] := nes_all_colon hno
    have hbody : parse_agent_session_key (some (build_agent_main_session_key agent_id mk)) =
        parseRawSegs (trimL (build_agent_main_session_key agent_id mk).data) := rfl
    rw [hbody, buildMain_data,
      trimL_agent_key (normalize_main_key_ne_nil mk)
        (fun c hc => normalize_main_key_getLast_not_ws hc)] at h
    obtain ⟨p1, p2, ps, hseg, -⟩ := (parseRawSegs_isSome_iff _).mp h
    rw [nes_agent_key (normalize_agent_id_ne_nil _) (normalize_agent_id_chars _),
      hsegs] at hseg
    simp at hseg
  · intro h
    exact wellformed_of_key_eq (buildMain_data agent_id mk)
      (normalize_agent_id_ne_nil _) (normalize_agent_id_chars _)
      (normalize_main_key_ne_nil mk)
      (fun c hc => normalize_main_key_getLast_not_ws hc)
      (nes_ne_nil_of_exists h)

/-! ## C9 — well-formedness of built keys -/

/-- C9 counterexample: the claim says every key produced by
`build_agent_main_session_key` parses and classifies as `agent`; but with
main key `":"` the built key is `agent:main::`, whose non-empty colon
segments number only two, so parse fails and the shape is
`malformed_agent`. -/
theorem c9_buildMain_colon_malformed :
    parse_agent_session_key
      (some (build_agent_main_session_key "main" (some ":"))) = none ∧
    classify_session_key_shape
      (some (build_agent_main_session_key "main" (some ":"))) = "malformed_agent" :=
  ⟨rfl, rfl⟩

/-- C9 (amended): every key built by `build_agent_peer_session_key` parses
and classifies as `agent` — except through the main-key fallback. In
detail: (1) for a non-direct peer kind containing a non-colon character the
key is always well-formed; (2) for a direct peer the key is either
well-formed or is exactly the `build_agent_main_session_key` fallback
(DM scope `main`, or empty resolved peer id); and (3) a
`build_agent_main_session_key` key is well-formed iff the normalized main
key contains a non-colon character. -/
theorem c9_built_keys_wellformed :
    (∀ (agent_id : String) (mk : Option String) (ch : String) (acct : Option String)
      (kind : String) (pid : Option String)
      (links : Option (List (String × List String))) (scope : DmScope),
      kind ≠ "" → kind ≠ "direct" → (∃ c ∈ kind.data, c ≠ ':') →
      (parse_agent_session_key (some (build_agent_peer_session_key agent_id mk ch acct
        (some kind) pid links scope))).isSome = true ∧
      classify_session_key_shape (some (build_agent_peer_session_key agent_id mk ch acct
        (some kind) pid links scope)) = "agent") ∧
    (∀ (agent_id : String) (mk : Option String) (ch : String) (acct : Option String)
      (pid : Option String) (links : Option (List (String × List String)))
      (scope : DmScope),
      ((parse_agent_session_key (some (build_agent_peer_session_key agent_id mk ch acct
          (some "direct") pid links scope))).isSome = true ∧
        classify_session_key_shape (some (build_agent_peer_session_key agent_id mk ch acct
          (some "direct") pid links scope)) = "agent") ∨
      build_agent_peer_session_key agent_id mk ch acct (some "direct") pid links scope =
        build_agent_main_session_key agent_id mk) ∧
    (∀ (agent_id : String) (mk : Option String),
      ((parse_agent_session_key
          (some (build_agent_main_session_key agent_id mk))).isSome = true ∧
        classify_session_key_shape
          (some (build_agent_main_session_key agent_id mk)) = "agent") ↔
      ∃ c ∈ (normalize_main_key mk).data, c ≠ ':') := by
  refine ⟨?_, ?_, buildMain_wellformed_iff⟩
  · intro agent_id mk ch acct kind pid links scope hk1 hk2 hkc
    rw [bp_group_eq agent_id mk ch acct kind pid links scope hk1 hk2]
    refine wellformed_of_key_eq (key_data_4 _ _ _ _)
      (normalize_agent_id_ne_nil _) (normalize_agent_id_chars _) (by simp)
      (fun c hc => ?_) ?_
    · rw [show (channelLowerOr ch).data ++ ':' :: (kind.data ++ ':' ::
          (pyLower (let t := pyStrip (pid.getD "");
            if t = "" then "unknown" else t)).data) =
        ((channelLowerOr ch).data ++ ':' :: (kind.data ++ [':'])) ++
          (pyLower (let t := pyStrip (pid.getD "");
            if t = "" then "unknown" else t)).data from by simp] at hc
      exact (unknown_pid_props pid).2 c
        (getLast_append_right (unknown_pid_props pid).1 hc)
    · rw [nes_append_colon, nes_append_colon]
      have := nes_ne_nil_of_exists hkc
      simp [this]
  · intro agent_id mk ch acct pid links scope
    by_cases hpl : pyLower (resolvedDirectPeerId ch pid links scope) = ""
    · right
      exact bp_direct_fallback agent_id mk ch acct pid links scope (Or.inr hpl)
    · cases scope with
      | main =>
        right
        exact bp_direct_fallback agent_id mk ch acct pid links DmScope.main (Or.inl rfl)
      | perPeer =>
        left
        rw [bp_perPeer_eq agent_id mk ch acct pid links hpl]
        refine wellformed_of_key_eq (key_data_direct _ _)
          (normalize_agent_id_ne_nil _) (normalize_agent_id_chars _) (by simp)
          (fun c hc => ?_) ?_
        · rw [show "direct".data ++ ':' ::
              (pyLower (resolvedDirectPeerId ch pid links DmScope.perPeer)).data =
            ("direct".data ++ [':']) ++
              (pyLower (resolvedDirectPeerId ch pid links DmScope.perPeer)).data
            from by simp] at hc
          exact (direct_pidL_props hpl).2 c
            (getLast_append_right (direct_pidL_props hpl).1 hc)
        · rw [nes_append_colon]
          simp [show nonemptySegs "direct".data = ["direct".data] from by decide]
      | perChannelPeer =>
        left
        rw [bp_perChannelPeer_eq agent_id mk ch acct pid links hpl]
        refine wellformed_of_key_eq (key_data_3direct _ _ _)
          (normalize_agent_id_ne_nil _) (normalize_agent_id_chars _) (by simp)
          (fun c hc => ?_) ?_
        · rw [show (channelLowerOr ch).data ++ ':' :: ("direct".data ++ ':' ::
              (pyLower (resolvedDirectPeerId ch pid links DmScope.perChannelPeer)).data) =
            ((channelLowerOr ch).data ++ ':' :: ("direct".data ++ [':'])) ++
              (pyLower (resolvedDirectPeerId ch pid links DmScope.perChannelPeer)).data
            from by simp] at hc
          exact (direct_pidL_props hpl).2 c
            (getLast_append_right (direct_pidL_props hpl).1 hc)
        · rw [nes_append_colon, nes_append_colon]
          simp [show nonemptySegs "direct".data = ["direct".data] from by decide]
      | perAccountChannelPeer =>
        left
        rw [bp_perAccountChannelPeer_eq agent_id mk ch acct pid links hpl]
        refine wellformed_of_key_eq (key_data_4direct _ _ _ _)
          (normalize_agent_id_ne_nil _) (normalize_agent_id_chars _) (by simp)
          (fun c hc => ?_) ?_
        · rw [show (channelLowerOr ch).data ++ ':' :: ((normalize_account_id acct).data ++
              ':' :: ("direct".data ++ ':' ::
              (pyLower (resolvedDirectPeerId ch pid links
                DmScope.perAccountChannelPeer)).data)) =
            ((channelLowerOr ch).data ++ ':' :: ((normalize_account_id acct).data ++
              ':' :: ("direct".data ++ [':']))) ++
              (pyLower (resolvedDirectPeerId ch pid links
                DmScope.perAccountChannelPeer)).data
            from by simp] at hc
          exact (direct_pidL_props hpl).2 c
            (getLast_append_right (direct_pidL_props hpl).1 hc)
        · rw [nes_append_colon, nes_append_colon, nes_append_colon]
          simp [show nonemptySegs "direct".data = ["direct".data] from by decide]

/-- C9 witness: the amended statement applied to the group-peer key
`agent:main:telegram:group:g1`. -/
theorem c9_witness :
    (parse_agent_session_key (some (build_agent_peer_session_key "main" none "telegram"
      none (some "group") (some "g1") none DmScope.main))).isSome = true ∧
    classify_session_key_shape (some (build_agent_peer_session_key "main" none "telegram"
      none (some "group") (some "g1") none DmScope.main)) = "agent" :=
  c9_built_keys_wellformed.1 "main" none "telegram" none "group" (some "g1") none
    DmScope.main (by decide) (by decide) ⟨'g', by decide, by decide⟩

/-! ## rfind lemmas (thread-parent resolution) -/

theorem rfindPat_append_some {pat y : List Char} {i : Nat}
    (h : rfindPat pat y = some i) :
    ∀ x : List Char, rfindPat pat (x ++ y) = some (x.length + i) := by
  intro x
  induction x with
  | nil => simpa using h
  | cons c xs ih =>
    show rfindPat pat (c :: (xs ++ y)) = _
    rw [rfindPat, ih]
    simp [Nat.add_assoc, Nat.add_comm 1 i]

theorem rfindPat_cons_inv {pat : List Char} {c : Char} {rest : List Char} {p : Nat}
    (h : rfindPat pat (c :: rest) = some p) :
    (∃ i, rfindPat pat rest = some i ∧ p = i + 1) ∨
    (rfindPat pat rest = none ∧ p = 0 ∧ matchesAt pat (c :: rest) = true) := by
  rw [rfindPat] at h
  cases hr : rfindPat pat rest with
  | some i =>
    rw [hr] at h
    simp only [] at h
    exact Or.inl ⟨i, rfl, (Option.some.inj h).symm⟩
  | none =>
    rw [hr] at h
    simp only [] at h
    split at h
    · exact Or.inr ⟨rfl, (Option.some.inj h).symm, by assumption⟩
    · exact Option.noConfusion h

theorem rfindPat_append_none_lt {pat y : List Char} (hy : rfindPat pat y = none) :
    ∀ {x : List Char} {p : Nat}, rfindPat pat (x ++ y) = some p → p < x.length := by
  intro x
  induction x with
  | nil =>
    intro p h
    rw [List.nil_append, hy] at h
    exact Option.noConfusion h
  | cons c xs ih =>
    intro p h
    rw [show (c :: xs) ++ y = c :: (xs ++ y) from rfl] at h
    rcases rfindPat_cons_inv h with ⟨i, hr, hp⟩ | ⟨-, hp, -⟩
    · subst hp
      exact Nat.succ_lt_succ (ih hr)
    · subst hp
      simp

theorem rfindPat_cons_zero {pat : List Char} {t0 : Char} {trest : List Char}
    (hrest : rfindPat pat trest = none)
    (hmatch : matchesAt pat (t0 :: trest) = true) :
    rfindPat pat (t0 :: trest) = some 0 := by
  rw [rfindPat, hrest]
  simp [hmatch]

theorem rfindPat_none_of_no_match {pat : List Char} :
    ∀ {l : List Char}, (∀ i, matchesAt pat (l.drop i) = false) →
      rfindPat pat l = none := by
  intro l
  induction l with
  | nil =>
    intro h
    have := h 0
    simp only [List.drop_nil] at this
    simp [rfindPat, this]
  | cons c cs ih =>
    intro h
    rw [rfindPat, ih (fun i => h (i + 1))]
    have := h 0
    simp only [List.drop_zero] at this
    simp [this]

theorem no_match_of_rfindPat_none {pat : List Char} :
    ∀ {l : List Char}, rfindPat pat l = none →
      ∀ i, matchesAt pat (l.drop i) = false := by
  intro l
  induction l with
  | nil =>
    intro h i
    rw [rfindPat] at h
    simp only [List.drop_nil]
    cases hm : matchesAt pat ([] : List Char)
    · rfl
    · rw [hm] at h; simp at h
  | cons c cs ih =>
    intro h i
    rw [rfindPat] at h
    cases hr : rfindPat pat cs with
    | some j =>
      rw [hr] at h
      simp only [] at h
      exact Option.noConfusion h
    | none =>
      rw [hr] at h
      simp only [] at h
      cases i with
      | zero =>
        simp only [List.drop_zero]
        cases hm : matchesAt pat (c :: cs)
        · rfl
        · rw [hm] at h; simp at h
      | succ j =>
        show matchesAt pat (cs.drop j) = false
        exact ih hr j

theorem matchesAt_cons_ne {p c : Char} {ps cs : List Char} (h : c ≠ p) :
    matchesAt (p :: ps) (c :: cs) = false := by
  simp only [matchesAt, List.length_cons, List.take_succ_cons]
  simp only [List.cons.injEq, decide_eq_false_iff_not]
  intro hc
  exact absurd hc.1 h

theorem matchesAt_cons_same {p : Char} {ps cs : List Char} :
    matchesAt (p :: ps) (p :: cs) = matchesAt ps cs := by
  simp [matchesAt, List.length_cons, List.take_succ_cons]

theorem matchesAt_nil_nonempty {p : Char} {ps : List Char} :
    matchesAt (p :: ps) [] = false := by
  simp [matchesAt]

theorem pyLowerChar_idem (c : Char) : pyLowerChar (pyLowerChar c) = pyLowerChar c := by
  by_cases hu : 65 ≤ c.toNat ∧ c.toNat ≤ 90
  · have h1 : (pyLowerChar c).toNat = c.toNat + 32 := pyLowerChar_toNat_of_upper hu.1 hu.2
    apply pyLowerChar_eq_self
    omega
  · rw [pyLowerChar_eq_self hu, pyLowerChar_eq_self hu]

theorem lowerL_idem (l : List Char) : lowerL (lowerL l) = lowerL l := by
  simp only [lowerL, List.map_map]
  exact List.map_congr_left (fun c _ => pyLowerChar_idem c)

/-! ## Thread-marker position lemmas

`T` abbreviates the part of the appended suffix after its leading colon:
`thread:<ntid>` as a character list, where `ntid` is the trimmed, lowered
thread id.
-/

theorem no_m1_in_T {N : List Char}
    (hN : rfindPat [':', 't', 'h', 'r', 'e', 'a', 'd', ':'] N = none)
    (hS : matchesAt ['t', 'h', 'r', 'e', 'a', 'd', ':'] N = false) :
    ∀ i, matchesAt [':', 't', 'h', 'r', 'e', 'a', 'd', ':']
      (('t' :: 'h' :: 'r' :: 'e' :: 'a' :: 'd' :: ':' :: N).drop i) = false := by
  intro i
  match i with
  | 0 => exact matchesAt_cons_ne (by decide)
  | 1 => exact matchesAt_cons_ne (by decide)
  | 2 => exact matchesAt_cons_ne (by decide)
  | 3 => exact matchesAt_cons_ne (by decide)
  | 4 => exact matchesAt_cons_ne (by decide)
  | 5 => exact matchesAt_cons_ne (by decide)
  | 6 =>
    show matchesAt [':', 't', 'h', 'r', 'e', 'a', 'd', ':'] (':' :: N) = false
    rw [matchesAt_cons_same]
    exact hS
  | (j + 7) =>
    show matchesAt _ (N.drop j) = false
    exact no_match_of_rfindPat_none hN j

theorem no_m2_in_T {N : List Char}
    (hN : rfindPat [':', 't', 'o', 'p', 'i', 'c', ':'] N = none)
    (hS : matchesAt ['t', 'o', 'p', 'i', 'c', ':'] N = false) :
    ∀ i, matchesAt [':', 't', 'o', 'p', 'i', 'c', ':']
      (('t' :: 'h' :: 'r' :: 'e' :: 'a' :: 'd' :: ':' :: N).drop i) = false := by
  intro i
  match i with
  | 0 => exact matchesAt_cons_ne (by decide)
  | 1 => exact matchesAt_cons_ne (by decide)
  | 2 => exact matchesAt_cons_ne (by decide)
  | 3 => exact matchesAt_cons_ne (by decide)
  | 4 => exact matchesAt_cons_ne (by decide)
  | 5 => exact matchesAt_cons_ne (by decide)
  | 6 =>
    show matchesAt [':', 't', 'o', 'p', 'i', 'c', ':'] (':' :: N) = false
    rw [matchesAt_cons_same]
    exact hS
  | (j + 7) =>
    show matchesAt _ (N.drop j) = false
    exact no_match_of_rfindPat_none hN j

theorem rfind_m1_tail {N : List Char}
    (hN : rfindPat [':', 't', 'h', 'r', 'e', 'a', 'd', ':'] N = none)
    (hS : matchesAt ['t', 'h', 'r', 'e', 'a', 'd', ':'] N = false) :
    rfindPat [':', 't', 'h', 'r', 'e', 'a', 'd', ':']
      (':' :: 't' :: 'h' :: 'r' :: 'e' :: 'a' :: 'd' :: ':' :: N) = some 0 := by
  refine rfindPat_cons_zero (rfindPat_none_of_no_match (no_m1_in_T hN hS)) ?_
  rw [matchesAt_cons_same, matchesAt_cons_same, matchesAt_cons_same,
    matchesAt_cons_same, matchesAt_cons_same, matchesAt_cons_same,
    matchesAt_cons_same, matchesAt_cons_same]
  simp [matchesAt]

theorem rfind_m2_tail {N : List Char}
    (hN : rfindPat [':', 't', 'o', 'p', 'i', 'c', ':'] N = none)
    (hS : matchesAt ['t', 'o', 'p', 'i', 'c', ':'] N = false) :
    rfindPat [':', 't', 'o', 'p', 'i', 'c', ':']
      (':' :: 't' :: 'h' :: 'r' :: 'e' :: 'a' :: 'd' :: ':' :: N) = none := by
  refine rfindPat_none_of_no_match ?_
  intro i
  match i with
  | 0 =>
    show matchesAt [':', 't', 'o', 'p', 'i', 'c', ':']
      (':' :: 't' :: 'h' :: 'r' :: 'e' :: 'a' :: 'd' :: ':' :: N) = false
    rw [matchesAt_cons_same, matchesAt_cons_same]
    exact matchesAt_cons_ne (by decide)
  | (j + 1) =>
    show matchesAt _ (('t' :: 'h' :: 'r' :: 'e' :: 'a' :: 'd' :: ':' :: N).drop j) = false
    exact no_m2_in_T hN hS j

theorem thread_key_data (b n : String) :
    (b ++ ":thread:" ++ n).data =
      b.data ++ ':' :: 't' :: 'h' :: 'r' :: 'e' :: 'a' :: 'd' :: ':' :: n.data := by
  rw [show (":thread:" : String) = ":" ++ "thread" ++ ":" from rfl]
  simp [String.data_append]

/-! ## C10 — thread-key round trip -/

/-- C10 counterexample: with thread id `topic:9` — non-empty, and whose
lowercase form contains neither `:thread:` nor `:topic:` — the appended
suffix creates a later `:topic:` occurrence spanning the boundary between
the `:thread:` marker and the id, so the parent resolution returns
`agent:main:main:thread` instead of the base key `agent:main:main`. -/
theorem c10_round_trip_fails_on_topic_id :
    (resolve_thread_session_keys "agent:main:main" (some "topic:9") none
        true).session_key = "agent:main:main:thread:topic:9" ∧
    resolve_thread_parent_session_key (some "agent:main:main:thread:topic:9") =
      some "agent:main:main:thread" ∧
    ("agent:main:main:thread" : String) ≠ "agent:main:main" := by
  refine ⟨rfl, by decide, by decide⟩

/-- C10 (amended): the thread-key round trip holds for every base key that
is non-empty and whitespace-trimmed and every thread id whose trimmed form
is non-empty and whose trimmed, lowered form neither contains `:thread:` or
`:topic:` (as Python `in`, i.e. `rfind` finds no occurrence) nor starts
with `thread:` or `topic:` — the two prefix cases produce a
boundary-spanning marker and are genuinely excluded, not just unproven. -/
theorem c10_thread_round_trip (base tid : String)
    (hb : base ≠ "") (hbt : pyStrip base = base)
    (ht : pyStrip tid ≠ "")
    (h1 : rfindPat [':', 't', 'h', 'r', 'e', 'a', 'd', ':']
      (pyLower (pyStrip tid)).data = none)
    (h2 : rfindPat [':', 't', 'o', 'p', 'i', 'c', ':']
      (pyLower (pyStrip tid)).data = none)
    (h3 : matchesAt ['t', 'h', 'r', 'e', 'a', 'd', ':'] (pyLower (pyStrip tid)).data = false)
    (h4 : matchesAt ['t', 'o', 'p', 'i', 'c', ':'] (pyLower (pyStrip tid)).data = false) :
    resolve_thread_parent_session_key
      (some ((resolve_thread_session_keys base (some tid) none true).session_key)) =
      some base := by
  have hkeys : (resolve_thread_session_keys base (some tid) none true).session_key =
      base ++ ":thread:" ++ pyLower (pyStrip tid) := by
    unfold resolve_thread_session_keys
    rw [if_neg (show ¬pyStrip ((some tid).getD "") = "" from ht)]
    rfl
  rw [hkeys]
  set N := (pyLower (pyStrip tid)).data with hN
  have hNne : N ≠ [] := pyLower_pyStrip_ne_nil ht
  have hNlow : lowerL N = N := by
    rw [hN]
    show lowerL (lowerL (trimL tid.data)) = lowerL (trimL tid.data)
    exact lowerL_idem _
  have hNlast : ∀ c, N.getLast? = some c → isPyWs c = false :=
    fun c hc => pyLower_data_getLast_not_ws (y := tid) hc
  have hB : base.data ≠ [] := data_ne_nil_of_ne_empty hb
  have hBtrim : trimL base.data = base.data := congrArg String.data hbt
  have hdata : (base ++ ":thread:" ++ pyLower (pyStrip tid)).data =
      base.data ++ ':' :: 't' :: 'h' :: 'r' :: 'e' :: 'a' :: 'd' :: ':' :: N :=
    thread_key_data base (pyLower (pyStrip tid))
  -- the stripped key is the key itself
  have htrim : trimL (base ++ ":thread:" ++ pyLower (pyStrip tid)).data =
      (base ++ ":thread:" ++ pyLower (pyStrip tid)).data := by
    rw [hdata]
    refine trimL_eq_self (fun c hc => ?_) (fun c hc => ?_)
    · cases hbd : base.data with
      | nil => exact absurd hbd hB
      | cons b0 bs =>
        rw [hbd] at hc
        have hb0 : b0 = c := by simpa using hc
        subst hb0
        have : (trimL base.data).head? = some b0 := by rw [hBtrim, hbd]; rfl
        exact trimL_head_not_ws this
    · rw [show base.data ++ ':' :: 't' :: 'h' :: 'r' :: 'e' :: 'a' :: 'd' :: ':' :: N =
        (base.data ++ [':', 't', 'h', 'r', 'e', 'a', 'd', ':']) ++ N from by simp] at hc
      exact hNlast c (getLast_append_right hNne hc)
  -- the lowered key splits at the marker
  have hlow : lowerL (base ++ ":thread:" ++ pyLower (pyStrip tid)).data =
      lowerL base.data ++ ':' :: 't' :: 'h' :: 'r' :: 'e' :: 'a' :: 'd' :: ':' :: N := by
    rw [hdata, show base.data ++ ':' :: 't' :: 'h' :: 'r' :: 'e' :: 'a' :: 'd' :: ':' :: N =
      base.data ++ ([':', 't', 'h', 'r', 'e', 'a', 'd', ':'] ++ N) from by simp,
      lowerL, List.map_append, List.map_append]
    rw [show List.map pyLowerChar [':', 't', 'h', 'r', 'e', 'a', 'd', ':'] =
      [':', 't', 'h', 'r', 'e', 'a', 'd', ':'] from by decide]
    rw [show List.map pyLowerChar N = lowerL N from rfl, hNlow]
    simp [lowerL]
  have hfind1 : rfindPat [':', 't', 'h', 'r', 'e', 'a', 'd', ':']
      (lowerL (base ++ ":thread:" ++ pyLower (pyStrip tid)).data) =
      some base.data.length := by
    rw [hlow, rfindPat_append_some (rfind_m1_tail h1 h3) (lowerL base.data)]
    simp [lowerL]
  have hfind2 : ∀ p, rfindPat [':', 't', 'o', 'p', 'i', 'c', ':']
      (lowerL (base ++ ":thread:" ++ pyLower (pyStrip tid)).data) = some p →
      p < base.data.length := by
    intro p hp
    rw [hlow] at hp
    have := rfindPat_append_none_lt (rfind_m2_tail h2 h4) hp
    simpa [lowerL] using this
  -- now evaluate the parent resolution
  have hfold : THREAD_SESSION_MARKERS.foldl
      (fun idx marker =>
        if rfindInt marker (lowerL (base ++ ":thread:" ++ pyLower (pyStrip tid)).data) > idx
        then rfindInt marker (lowerL (base ++ ":thread:" ++ pyLower (pyStrip tid)).data)
        else idx) (-1) = (base.data.length : Int) := by
    have hc1 : rfindInt [':', 't', 'h', 'r', 'e', 'a', 'd', ':']
        (lowerL (base ++ ":thread:" ++ pyLower (pyStrip tid)).data) =
        (base.data.length : Int) := by
      unfold rfindInt
      rw [hfind1]
    rw [show THREAD_SESSION_MARKERS =
      [[':', 't', 'h', 'r', 'e', 'a', 'd', ':'], [':', 't', 'o', 'p', 'i', 'c', ':']] from rfl,
      List.foldl_cons, List.foldl_cons, List.foldl_nil]
    rw [hc1, if_pos (show ((base.data.length : Int)) > -1 from by omega)]
    cases hf2 : rfindPat [':', 't', 'o', 'p', 'i', 'c', ':']
        (lowerL (base ++ ":thread:" ++ pyLower (pyStrip tid)).data) with
    | none =>
      have hc2 : rfindInt [':', 't', 'o', 'p', 'i', 'c', ':']
          (lowerL (base ++ ":thread:" ++ pyLower (pyStrip tid)).data) = -1 := by
        unfold rfindInt
        rw [hf2]
      rw [hc2, if_neg (show ¬(-1 : Int) > (base.data.length : Int) from by omega)]
    | some p =>
      have hlt := hfind2 p hf2
      have hc2 : rfindInt [':', 't', 'o', 'p', 'i', 'c', ':']
          (lowerL (base ++ ":thread:" ++ pyLower (pyStrip tid)).data) = (p : Int) := by
        unfold rfindInt
        rw [hf2]
      rw [hc2, if_neg (show ¬(p : Int) > (base.data.length : Int) from by omega)]
  have htake : (base ++ ":thread:" ++ pyLower (pyStrip tid)).data.take
      ((base.data.length : Int)).toNat = base.data := by
    rw [hdata, Int.toNat_natCast,
      show base.data ++ ':' :: 't' :: 'h' :: 'r' :: 'e' :: 'a' :: 'd' :: ':' :: N =
        base.data ++ ([':', 't', 'h', 'r', 'e', 'a', 'd', ':'] ++ N) from by simp]
    exact List.take_left base.data _
  show resolve_thread_parent_session_key
    (some (base ++ ":thread:" ++ pyLower (pyStrip tid))) = some base
  simp only [resolve_thread_parent_session_key]
  rw [htrim]
  rw [if_neg (show ¬(base ++ ":thread:" ++ pyLower (pyStrip tid)).data = [] from by
    rw [hdata]; simp)]
  rw [hfold]
  rw [if_neg (show ¬(base.data.length : Int) ≤ 0 from by
    have : 0 < base.data.length := List.length_pos.mpr hB
    omega)]
  rw [htake, hBtrim]
  rw [if_neg hB]

/-- C10 witness: the round trip at base `agent:main:main` and thread id
`123`. -/
theorem c10_witness :
    resolve_thread_parent_session_key
      (some ((resolve_thread_session_keys "agent:main:main" (some "123") none
        true).session_key)) = some "agent:main:main" :=
  c10_thread_round_trip "agent:main:main" "123" (by decide) (by decide) (by decide)
    (by decide) (by decide) (by decide) (by decide)

/-! ## C1 — totality of `resolve_agent_route` -/

/-- C1: the claim says `resolve_agent_route` is total and never raises, in
particular that tier-1 peer matching completes when a binding carries a peer
predicate and the input carries a peer. The code contradicts this (and its
own test `test_resolve_agent_route_peer_binding`): with a plain-dict peer
predicate and an input peer, `_matches_peer` reaches
`routing/resolve_route.py:170`, which evaluates the undefined global name
`peer__get_attr` and raises `NameError`. -/
theorem c1_resolve_agent_route_raises_on_dict_peer_binding :
    resolve_agent_route c1Input = Except.error PyError.nameError := by
  rfl

/-! ## C2 — `update_session_store` under the per-path lock -/

/-- C2: the claim says every concurrent `update_session_store` call against
one path completes and no update is lost. In the code `update_session_store`
acquires the per-path `asyncio.Lock` and then calls `save_session_store`,
which `await`s the same non-reentrant lock; the nested acquisition can never
be released by anyone, so no `update_session_store` call ever completes —
not even a single one against a fresh store (contradicting the store tests
`test_update_adds_entry` and `test_concurrent_updates`). -/
theorem c2_update_session_store_never_completes :
    (∀ (α : Type) (st : StoreSt)
      (mutator : List (String × SessionEntry) → List (String × SessionEntry) × α)
      (skipMaintenance : Bool) (nowMs : Int),
      update_session_store st mutator skipMaintenance nowMs = none) ∧
    update_session_store (StoreSt.mk false none [])
      (fun s => (upsert s "s1" (baseEntry "1" 1000), ())) false 0 = none := by
  constructor
  · intro α st mutator skipMaintenance nowMs
    unfold update_session_store save_session_store
    by_cases h : st.lockHeld <;> simp [h]
  · rfl

end OpenClaw
